import Mathlib

/-!
Verification of the cryptographic transform core of the built-in DDS
security plugin (`CryptoBuiltInImpl.cpp`).

The C++ code is shallowly embedded: octet arrays and octet sequences become
`List Nat` (each element a byte value), CORBA structures become Lean
structures, the `std::map`/`std::multimap` registries become association
lists with lookup/insert/erase operations mirroring the C++ semantics
(including the entry-inserting behaviour of `std::map::operator[]`), and
the OpenSSL primitives (SHA-256, HMAC-SHA256, AES-GCM) are passed in as
function parameters, since their internals live outside this repository.
Randomness (`RAND_bytes`) is made explicit: each operation that draws
random bytes receives them as arguments.
-/

namespace CryptoBuiltIn

/-! ### Byte-list utilities -/

/-- Little-endian value of a byte list: `l[0] + 256*l[1] + ...`. -/
def leVal (l : List Nat) : Nat :=
  l.foldr (fun b acc => b + 256 * acc) 0

/-- Little-endian 4-byte encoding of `n` (each byte reduced mod 256),
mirroring `k.sender_key_id[i] = key_id >> (8 * i)` with the implicit
truncation of assignment to `unsigned char`. -/
def le32 (n : Nat) : List Nat :=
  [n % 256, n / 2 ^ 8 % 256, n / 2 ^ 16 % 256, n / 2 ^ 24 % 256]

/-- Little-endian 8-byte encoding of `n`. -/
def le64 (n : Nat) : List Nat :=
  [n % 256, n / 2 ^ 8 % 256, n / 2 ^ 16 % 256, n / 2 ^ 24 % 256,
   n / 2 ^ 32 % 256, n / 2 ^ 40 % 256, n / 2 ^ 48 % 256, n / 2 ^ 56 % 256]

/-- Big-endian 4-byte encoding of `n` (CDR `uint32` under `SWAP_BE`). -/
def u32be (n : Nat) : List Nat :=
  [n / 2 ^ 24 % 256, n / 2 ^ 16 % 256, n / 2 ^ 8 % 256, n % 256]

/-- Big-endian 2-byte encoding of `n` (CDR `uint16` under `SWAP_BE`). -/
def u16be (n : Nat) : List Nat :=
  [n / 2 ^ 8 % 256, n % 256]

/-- All elements are byte values. -/
def bytesWF (l : List Nat) : Prop := ∀ b ∈ l, b < 256

instance (l : List Nat) : Decidable (bytesWF l) := by
  unfold bytesWF; infer_instance

/-! ### Key material (C++ `KeyMaterial_AES_GCM_GMAC`) -/

/-- `KeyMaterial_AES_GCM_GMAC`: `kind`, `skid`, `rkid` model the 4-byte
arrays `transformation_kind`, `sender_key_id`, `receiver_specific_key_id`;
`salt`, `msk`, `mrsk` model the octet sequences `master_salt`,
`master_sender_key`, `master_receiver_specific_key`. -/
structure KeyMat where
  kind : List Nat
  salt : List Nat
  skid : List Nat
  msk : List Nat
  rkid : List Nat
  mrsk : List Nat
deriving DecidableEq

/-- `CRYPTO_TRANSFORMATION_KIND_AES128_GMAC` (spec §3: last byte 1). -/
def KIND_AES128_GMAC : Nat := 1
/-- `CRYPTO_TRANSFORMATION_KIND_AES128_GCM` (spec §3: last byte 2). -/
def KIND_AES128_GCM : Nat := 2
/-- `CRYPTO_TRANSFORMATION_KIND_AES256_GMAC` (spec §3: last byte 3). -/
def KIND_AES256_GMAC : Nat := 3
/-- `CRYPTO_TRANSFORMATION_KIND_AES256_GCM` (spec §3: last byte 4). -/
def KIND_AES256_GCM : Nat := 4

/-- `encrypts`: first three kind bytes zero and last byte
(`TransformKindIndex` = 3) AES128_GCM or AES256_GCM. -/
def encrypts (k : KeyMat) : Bool :=
  k.kind.getD 0 0 == 0 && k.kind.getD 1 0 == 0 && k.kind.getD 2 0 == 0 &&
  (k.kind.getD 3 0 == KIND_AES128_GCM || k.kind.getD 3 0 == KIND_AES256_GCM)

/-- `authenticates`: first three kind bytes zero and last byte AES128_GMAC
or AES256_GMAC. -/
def authenticates (k : KeyMat) : Bool :=
  k.kind.getD 0 0 == 0 && k.kind.getD 1 0 == 0 && k.kind.getD 2 0 == 0 &&
  (k.kind.getD 3 0 == KIND_AES128_GMAC || k.kind.getD 3 0 == KIND_AES256_GMAC)

/-- Modelled from the spec: the two fixed vendor-identifier bytes of the
volatile placeholder's `transformation_kind` (`{VENDOR_A, VENDOR_B, 0, 1}`,
spec §6); the concrete values of `DCPS::VENDORID_OCI` live outside this
repository's sources. -/
def VENDOR_A : Nat := 1
/-- Modelled from the spec: second vendor-identifier byte, see `VENDOR_A`. -/
def VENDOR_B : Nat := 3

/-- `make_volatile_placeholder`: sentinel key material marking a volatile
endpoint; vendor-scoped kind, all other fields empty or zero. -/
def make_volatile_placeholder : KeyMat :=
  ⟨[VENDOR_A, VENDOR_B, 0, 1], [], [0, 0, 0, 0], [], [0, 0, 0, 0], []⟩

/-- `is_volatile_placeholder`: `memcmp` of the 4 kind bytes against the
placeholder kind. -/
def is_volatile_placeholder (k : KeyMat) : Bool :=
  k.kind == [VENDOR_A, VENDOR_B, 0, 1]

/-- `make_key key_id encrypt salt msk`: transformation kind AES-256
GCM/GMAC, random 32-byte salt and sender key supplied as `salt`/`msk`,
`sender_key_id` the little-endian 4 bytes of `key_id`, receiver fields
zero/empty. -/
def make_key (key_id : Nat) (enc : Bool) (salt msk : List Nat) : KeyMat :=
  ⟨[0, 0, 0, if enc then KIND_AES256_GCM else KIND_AES256_GMAC],
   salt, le32 key_id, msk, [0, 0, 0, 0], []⟩

/-! ### Crypto header and footer -/

/-- `CryptoHeader`: transform identifier (kind bytes and key-id bytes),
session id and IV suffix, each kept as byte lists. -/
structure CryptoHeaderM where
  kind : List Nat
  keyId : List Nat
  sessionId : List Nat
  ivSuffix : List Nat
deriving DecidableEq

/-- `matches k h` (decode-side key lookup): `memcmp` of the key's
`transformation_kind` with the header's kind bytes and of the key's
`sender_key_id` with the header's key-id bytes. -/
def matchesHdr (k : KeyMat) (h : CryptoHeaderM) : Bool :=
  k.kind == h.kind && k.skid == h.keyId

/-! ### Session engine -/

/-- Per-(handle, key-index) session state: 4-byte id, 8-byte IV suffix,
block counter, derived session key. -/
structure Session where
  id : List Nat
  ivSuffix : List Nat
  counter : Nat
  key : List Nat
deriving DecidableEq

/-- Modelled from the spec: a `Session` before first use ("Session state is
created lazily on first use", spec §3); the mapped-type default of the
C++ session table is not in the sources.  Its key is empty, which is the
only field `encauth_setup` inspects before initialising the rest. -/
def defaultSession : Session := ⟨[0, 0, 0, 0], le64 0, 0, []⟩

/-- `inc32`: increment the first byte (in index order) that is not `0xff`,
leaving lower-indexed bytes unchanged; if all four bytes are `0xff`, zero
them and report the wrap. -/
def inc32 (a : List Nat) : List Nat × Bool :=
  match a with
  | [a0, a1, a2, a3] =>
    if a0 ≠ 255 then ([a0 + 1, a1, a2, a3], false)
    else if a1 ≠ 255 then ([a0, a1 + 1, a2, a3], false)
    else if a2 ≠ 255 then ([a0, a1, a2 + 1, a3], false)
    else if a3 ≠ 255 then ([a0, a1, a2, a3 + 1], false)
    else ([0, 0, 0, 0], true)
  | _ => (a, false)

/-- `Session::inc_iv`: `inc32` on the low 4 bytes; on wrap, `inc32` on the
high 4 bytes. -/
def inc_iv (iv : List Nat) : List Nat :=
  let lo := iv.take 4
  let hi := iv.drop 4
  let r := inc32 lo
  if r.2 then r.1 ++ (inc32 hi).1 else r.1 ++ hi

/-- The 10-byte key-derivation cookie `"SessionKey"` (no NUL). -/
def sessionKeyCookie : List Nat := "SessionKey".toList.map Char.toNat

/-- `Session::derive_key`: HMAC-SHA256 keyed by the master sender key over
`"SessionKey" ‖ master_salt ‖ session id`; the HMAC primitive itself is a
parameter. -/
def derive_key (hmac : List Nat → List Nat → List Nat)
    (master : KeyMat) (id : List Nat) : List Nat :=
  hmac master.msk (sessionKeyCookie ++ master.salt ++ id)

/-- `Session::create_key`: fresh random id and IV suffix, key derived,
counter zero. -/
def session_create_key (hmac : List Nat → List Nat → List Nat)
    (randId randIv : List Nat) (master : KeyMat) : Session :=
  ⟨randId, randIv, 0, derive_key hmac master randId⟩

/-- `Session::next_id`: `inc32` the id, re-randomize the IV suffix,
re-derive the key from the new id, reset the counter. -/
def session_next_id (hmac : List Nat → List Nat → List Nat)
    (randIv : List Nat) (master : KeyMat) (s : Session) : Session :=
  let newId := (inc32 s.id).1
  ⟨newId, randIv, 0, derive_key hmac master newId⟩

/-- Number of 16-byte blocks of a plaintext (`BLOCK_LEN_BYTES = 16`). -/
def blocksOf (plainLen : Nat) : Nat := (plainLen + 16 - 1) / 16

/-- `MAX_BLOCKS_PER_SESSION`. -/
def MAX_BLOCKS_PER_SESSION : Nat := 1024

/-- `CryptoBuiltInImpl::encauth_setup`: advance the session for a message
of `plainLen` plaintext bytes and build the crypto header from the master
key identifiers and the resulting session. -/
def encauth_setup (hmac : List Nat → List Nat → List Nat)
    (randId randIv : List Nat) (master : KeyMat) (s : Session)
    (plainLen : Nat) : Session × CryptoHeaderM :=
  let blocks := blocksOf plainLen
  let s' :=
    if s.key.length = 0 then
      session_create_key hmac randId randIv master
    else if s.counter + blocks > MAX_BLOCKS_PER_SESSION then
      session_next_id hmac randIv master s
    else
      { s with ivSuffix := inc_iv s.ivSuffix, counter := s.counter + blocks }
  (s', ⟨master.kind, master.skid, s'.id, s'.ivSuffix⟩)

/-! ### Arithmetic characterization of `inc32` / `inc_iv` -/

/-- All bytes are `0xff`. -/
def all255 (l : List Nat) : Bool := l.all (· == 255)

/-- Number of leading (low-order) `0xff` bytes. -/
def lead255 : List Nat → Nat
  | [] => 0
  | b :: t => if b = 255 then lead255 t + 1 else 0

/-- The amount by which `inc32` advances the little-endian value: 1 on the
all-`0xff` wrap (value `2^32 - 1` goes to `0`), else `256 ^ k` where `k`
counts the low-order `0xff` bytes that `inc32` skips without clearing. -/
def incStep (l : List Nat) : Nat :=
  if all255 l then 1 else 256 ^ lead255 l

/-- The amount by which `inc_iv` advances the 64-bit little-endian value:
when the low 4-byte word is not all `0xff`, the low word's `incStep`;
otherwise the low word wraps to zero and the high word advances by its own
`incStep`. -/
def ivStep (iv : List Nat) : Nat :=
  if all255 (iv.take 4) then 1 + 2 ^ 32 * (incStep (iv.drop 4) - 1)
  else 256 ^ lead255 (iv.take 4)


theorem leVal_nil : leVal [] = 0 := rfl

theorem leVal_cons (x : Nat) (t : List Nat) : leVal (x :: t) = x + 256 * leVal t := rfl

theorem leVal_append (a b : List Nat) :
    leVal (a ++ b) = leVal a + 256 ^ a.length * leVal b := by
  induction a with
  | nil => simp [leVal_nil]
  | cons x t ih =>
    rw [List.cons_append, leVal_cons, ih, leVal_cons, List.length_cons, pow_succ]
    ring

theorem leVal_lt (l : List Nat) (h : bytesWF l) : leVal l < 256 ^ l.length := by
  induction l with
  | nil => simp [leVal_nil]
  | cons x t ih =>
    have hx : x < 256 := h x (List.mem_cons_self _ _)
    have ht := ih (fun b hb => h b (List.mem_cons_of_mem _ hb))
    rw [leVal_cons, List.length_cons, pow_succ]
    have h2 : 256 * (leVal t + 1) ≤ 256 * 256 ^ t.length :=
      Nat.mul_le_mul_left _ ht
    omega

theorem inc32_spec (a0 a1 a2 a3 : Nat) (h0 : a0 < 256) (h1 : a1 < 256)
    (h2 : a2 < 256) (h3 : a3 < 256) :
    leVal (inc32 [a0, a1, a2, a3]).1 =
      (leVal [a0, a1, a2, a3] + incStep [a0, a1, a2, a3]) % 2 ^ 32 ∧
    (inc32 [a0, a1, a2, a3]).2 = all255 [a0, a1, a2, a3] ∧
    (all255 [a0, a1, a2, a3] = false →
      leVal [a0, a1, a2, a3] + incStep [a0, a1, a2, a3] < 2 ^ 32) := by
  have e : ∀ x0 x1 x2 x3 : Nat, leVal [x0, x1, x2, x3] =
      x0 + 256 * x1 + 65536 * x2 + 16777216 * x3 := by
    intro x0 x1 x2 x3
    rw [leVal_cons, leVal_cons, leVal_cons, leVal_cons, leVal_nil]
    ring
  simp only [inc32]
  split_ifs with c0 c1 c2 c3
  · have hs : incStep [a0, a1, a2, a3] = 1 := by
      simp [incStep, all255, lead255, c0]
    have ha : all255 [a0, a1, a2, a3] = false := by simp [all255, c0]
    rw [hs, ha, e, e]
    exact ⟨by omega, rfl, fun _ => by omega⟩
  · rw [not_not] at c0
    have hs : incStep [a0, a1, a2, a3] = 256 := by
      simp [incStep, all255, lead255, c0, c1]
    have ha : all255 [a0, a1, a2, a3] = false := by simp [all255, c1]
    rw [hs, ha, e, e]
    exact ⟨by omega, rfl, fun _ => by omega⟩
  · rw [not_not] at c0 c1
    have hs : incStep [a0, a1, a2, a3] = 65536 := by
      simp [incStep, all255, lead255, c0, c1, c2]
    have ha : all255 [a0, a1, a2, a3] = false := by simp [all255, c2]
    rw [hs, ha, e, e]
    exact ⟨by omega, rfl, fun _ => by omega⟩
  · rw [not_not] at c0 c1 c2
    have hs : incStep [a0, a1, a2, a3] = 16777216 := by
      simp [incStep, all255, lead255, c0, c1, c2, c3]
    have ha : all255 [a0, a1, a2, a3] = false := by simp [all255, c3]
    rw [hs, ha, e, e]
    exact ⟨by omega, rfl, fun _ => by omega⟩
  · rw [not_not] at c0 c1 c2 c3
    have hs : incStep [a0, a1, a2, a3] = 1 := by
      simp [incStep, all255, c0, c1, c2, c3]
    have ha : all255 [a0, a1, a2, a3] = true := by simp [all255, c0, c1, c2, c3]
    rw [hs, ha, e, e]
    subst c0 c1 c2 c3
    exact ⟨by norm_num, rfl, fun h => by simp at h⟩

theorem inc32_len (a : List Nat) (h : a.length = 4) :
    (inc32 a).1.length = 4 := by
  match a, h with
  | [a0, a1, a2, a3], _ =>
    simp only [inc32]
    split_ifs <;> rfl

theorem incStep_pos (l : List Nat) : 1 ≤ incStep l := by
  unfold incStep
  split
  · omega
  · exact Nat.one_le_two_pow.trans (Nat.pow_le_pow_left (by omega) _)
theorem all255_four (b0 b1 b2 b3 : Nat) (h : all255 [b0, b1, b2, b3] = true) :
    b0 = 255 ∧ b1 = 255 ∧ b2 = 255 ∧ b3 = 255 := by
  simp [all255] at h
  exact h

theorem list_len8 (l : List Nat) (h : l.length = 8) :
    ∃ b0 b1 b2 b3 b4 b5 b6 b7, l = [b0, b1, b2, b3, b4, b5, b6, b7] := by
  match l, h with
  | [b0, b1, b2, b3, b4, b5, b6, b7], _ => exact ⟨_, _, _, _, _, _, _, _, rfl⟩

theorem bytesWF_four (b0 b1 b2 b3 : Nat) (h0 : b0 < 256) (h1 : b1 < 256)
    (h2 : b2 < 256) (h3 : b3 < 256) : bytesWF [b0, b1, b2, b3] := by
  intro b hb; simp at hb; rcases hb with h | h | h | h <;> omega

theorem leVal_four_lt (b0 b1 b2 b3 : Nat) (h0 : b0 < 256) (h1 : b1 < 256)
    (h2 : b2 < 256) (h3 : b3 < 256) : leVal [b0, b1, b2, b3] < 2 ^ 32 := by
  have h := leVal_lt [b0, b1, b2, b3] (bytesWF_four b0 b1 b2 b3 h0 h1 h2 h3)
  have hl : ([b0, b1, b2, b3] : List Nat).length = 4 := rfl
  rw [hl] at h
  have hp : (256 : Nat) ^ 4 = 2 ^ 32 := by norm_num
  rw [hp] at h
  exact h

theorem inc_iv_spec_lo_wrap (b4 b5 b6 b7 : Nat) (h4 : b4 < 256) (h5 : b5 < 256)
    (h6 : b6 < 256) (h7 : b7 < 256) :
    leVal (inc_iv [255, 255, 255, 255, b4, b5, b6, b7]) =
      (leVal [255, 255, 255, 255, b4, b5, b6, b7] +
        ivStep [255, 255, 255, 255, b4, b5, b6, b7]) % 2 ^ 64 := by
  have shi := inc32_spec b4 b5 b6 b7 h4 h5 h6 h7
  have hred : inc_iv [255, 255, 255, 255, b4, b5, b6, b7] =
      [0, 0, 0, 0] ++ (inc32 [b4, b5, b6, b7]).1 := rfl
  rw [hred]
  have hstep : ivStep [255, 255, 255, 255, b4, b5, b6, b7] =
      1 + 2 ^ 32 * (incStep [b4, b5, b6, b7] - 1) := by
    simp [ivStep, all255]
  have hsplit : ([255, 255, 255, 255, b4, b5, b6, b7] : List Nat) =
      [255, 255, 255, 255] ++ [b4, b5, b6, b7] := rfl
  rw [hstep, hsplit, leVal_append, leVal_append]
  have hlen0 : ([0, 0, 0, 0] : List Nat).length = 4 := rfl
  have hlenf : ([255, 255, 255, 255] : List Nat).length = 4 := rfl
  rw [hlen0, hlenf]
  have hz : leVal [0, 0, 0, 0] = 0 := rfl
  have hf : leVal [255, 255, 255, 255] = 4294967295 := by simp [leVal]
  rw [hz, hf, shi.1]
  have hhi_lt := leVal_four_lt b4 b5 b6 b7 h4 h5 h6 h7
  have hpos := incStep_pos [b4, b5, b6, b7]
  have key : ∀ x : Nat, 256 ^ 4 * (x % 2 ^ 32) = (256 ^ 4 * x) % 2 ^ 64 := by
    intro x
    have h64 : (2 : Nat) ^ 64 = 2 ^ 32 * 2 ^ 32 := by norm_num
    rw [h64]
    have h4pow : (256 : Nat) ^ 4 = 2 ^ 32 := by norm_num
    rw [h4pow, Nat.mul_mod_mul_left]
  rw [key]
  omega

theorem inc_iv_spec_lo_nowrap (b0 b1 b2 b3 b4 b5 b6 b7 : Nat)
    (h0 : b0 < 256) (h1 : b1 < 256) (h2 : b2 < 256) (h3 : b3 < 256)
    (h4 : b4 < 256) (h5 : b5 < 256) (h6 : b6 < 256) (h7 : b7 < 256)
    (hfalse : all255 [b0, b1, b2, b3] = false) :
    leVal (inc_iv [b0, b1, b2, b3, b4, b5, b6, b7]) =
      (leVal [b0, b1, b2, b3, b4, b5, b6, b7] +
        ivStep [b0, b1, b2, b3, b4, b5, b6, b7]) % 2 ^ 64 := by
  have slo := inc32_spec b0 b1 b2 b3 h0 h1 h2 h3
  have hf2 : (inc32 [b0, b1, b2, b3]).2 = false := by rw [slo.2.1, hfalse]
  have hiv : inc_iv [b0, b1, b2, b3, b4, b5, b6, b7] =
      if (inc32 [b0, b1, b2, b3]).2 then
        (inc32 [b0, b1, b2, b3]).1 ++ (inc32 [b4, b5, b6, b7]).1
      else (inc32 [b0, b1, b2, b3]).1 ++ [b4, b5, b6, b7] := rfl
  rw [hiv, hf2]
  simp only [Bool.false_eq_true, if_false]
  have hstep : ivStep [b0, b1, b2, b3, b4, b5, b6, b7] =
      incStep [b0, b1, b2, b3] := by
    have htk : ([b0, b1, b2, b3, b4, b5, b6, b7] : List Nat).take 4 =
        [b0, b1, b2, b3] := rfl
    simp [ivStep, incStep, htk, hfalse]
  have hsplit : ([b0, b1, b2, b3, b4, b5, b6, b7] : List Nat) =
      [b0, b1, b2, b3] ++ [b4, b5, b6, b7] := rfl
  rw [hstep, hsplit, leVal_append, leVal_append,
    inc32_len [b0, b1, b2, b3] rfl, slo.1]
  have hnomod := slo.2.2 hfalse
  have hhi_lt := leVal_four_lt b4 b5 b6 b7 h4 h5 h6 h7
  have hlen4 : ([b0, b1, b2, b3] : List Nat).length = 4 := rfl
  rw [hlen4]
  have h256 : (256 : Nat) ^ 4 = 2 ^ 32 := by norm_num
  rw [h256]
  rw [Nat.mod_eq_of_lt hnomod]
  have htot : leVal [b0, b1, b2, b3] + 2 ^ 32 * leVal [b4, b5, b6, b7] +
      incStep [b0, b1, b2, b3] < 2 ^ 64 := by
    have hb : 2 ^ 32 * leVal [b4, b5, b6, b7] ≤ 2 ^ 32 * (2 ^ 32 - 1) :=
      Nat.mul_le_mul_left _ (by omega)
    omega
  rw [Nat.mod_eq_of_lt htot]
  ring

theorem inc_iv_spec (l : List Nat) (hlen : l.length = 8) (hwf : bytesWF l) :
    leVal (inc_iv l) = (leVal l + ivStep l) % 2 ^ 64 := by
  obtain ⟨b0, b1, b2, b3, b4, b5, b6, b7, rfl⟩ := list_len8 l hlen
  have h0 : b0 < 256 := hwf b0 (by simp)
  have h1 : b1 < 256 := hwf b1 (by simp)
  have h2 : b2 < 256 := hwf b2 (by simp)
  have h3 : b3 < 256 := hwf b3 (by simp)
  have h4 : b4 < 256 := hwf b4 (by simp)
  have h5 : b5 < 256 := hwf b5 (by simp)
  have h6 : b6 < 256 := hwf b6 (by simp)
  have h7 : b7 < 256 := hwf b7 (by simp)
  by_cases hall : all255 [b0, b1, b2, b3] = true
  · obtain ⟨e0, e1, e2, e3⟩ := all255_four b0 b1 b2 b3 hall
    subst e0; subst e1; subst e2; subst e3
    exact inc_iv_spec_lo_wrap b4 b5 b6 b7 h4 h5 h6 h7
  · exact inc_iv_spec_lo_nowrap b0 b1 b2 b3 b4 b5 b6 b7 h0 h1 h2 h3 h4 h5 h6 h7
      (by simp only [Bool.not_eq_true] at hall; exact hall)

theorem list_len4 (l : List Nat) (h : l.length = 4) :
    ∃ b0 b1 b2 b3, l = [b0, b1, b2, b3] := by
  match l, h with
  | [b0, b1, b2, b3], _ => exact ⟨_, _, _, _, rfl⟩

theorem inc32_leVal (l : List Nat) (hlen : l.length = 4) (hwf : bytesWF l) :
    leVal (inc32 l).1 = (leVal l + incStep l) % 2 ^ 32 := by
  obtain ⟨b0, b1, b2, b3, rfl⟩ := list_len4 l hlen
  exact (inc32_spec b0 b1 b2 b3 (hwf b0 (by simp)) (hwf b1 (by simp))
    (hwf b2 (by simp)) (hwf b3 (by simp))).1

/-- **C1** (amended): `encauth_setup` for a message of
`b = ceil(plainLen / 16)` blocks advances the session as the claim states,
except for the arithmetic law of the increments: (1) empty session key ⇒
fresh session with the supplied random id and IV suffix, counter 0, key
derived; (2) else if `counter + b > 1024` ⇒ the id's little-endian 32-bit
value advances by `incStep` — `256^k` for `k` low-order `0xff` bytes,
wrapping to zero from all-`0xff` — the IV suffix is re-randomized, the key
is re-derived from the new id, and the counter resets; (3) otherwise the IV
suffix's little-endian 64-bit value advances by `ivStep` (the analogous
law) and the counter grows by `b`.  The header always carries the master
key's transformation kind and sender key id together with the resulting
session id and IV suffix.  (The claim's plain "incremented as a 32-bit or
64-bit little-endian integer" is false: `inc32` leaves low-order `0xff`
bytes unchanged, see the counterexample.) -/
theorem c1_encauth_setup_session_advance
    (hmac : List Nat → List Nat → List Nat) (randId randIv : List Nat)
    (master : KeyMat) (s : Session) (plainLen : Nat)
    (hid : s.id.length = 4) (hwid : bytesWF s.id)
    (hiv : s.ivSuffix.length = 8) (hwiv : bytesWF s.ivSuffix) :
    (s.key.length = 0 →
       (encauth_setup hmac randId randIv master s plainLen).1 =
         ⟨randId, randIv, 0, derive_key hmac master randId⟩) ∧
    (s.key.length ≠ 0 → s.counter + (plainLen + 15) / 16 > 1024 →
       leVal (encauth_setup hmac randId randIv master s plainLen).1.id =
         (leVal s.id + incStep s.id) % 2 ^ 32 ∧
       (encauth_setup hmac randId randIv master s plainLen).1.ivSuffix = randIv ∧
       (encauth_setup hmac randId randIv master s plainLen).1.counter = 0 ∧
       (encauth_setup hmac randId randIv master s plainLen).1.key =
         derive_key hmac master
           (encauth_setup hmac randId randIv master s plainLen).1.id) ∧
    (s.key.length ≠ 0 → s.counter + (plainLen + 15) / 16 ≤ 1024 →
       leVal (encauth_setup hmac randId randIv master s plainLen).1.ivSuffix =
         (leVal s.ivSuffix + ivStep s.ivSuffix) % 2 ^ 64 ∧
       (encauth_setup hmac randId randIv master s plainLen).1.id = s.id ∧
       (encauth_setup hmac randId randIv master s plainLen).1.key = s.key ∧
       (encauth_setup hmac randId randIv master s plainLen).1.counter =
         s.counter + (plainLen + 15) / 16) ∧
    (encauth_setup hmac randId randIv master s plainLen).2 =
      ⟨master.kind, master.skid,
       (encauth_setup hmac randId randIv master s plainLen).1.id,
       (encauth_setup hmac randId randIv master s plainLen).1.ivSuffix⟩ := by
  have hblocks : blocksOf plainLen = (plainLen + 15) / 16 := rfl
  refine ⟨?_, ?_, ?_, rfl⟩
  · intro hk
    have h1 : (encauth_setup hmac randId randIv master s plainLen).1 =
        session_create_key hmac randId randIv master := by
      simp only [encauth_setup, if_pos hk]
    rw [h1]
    rfl
  · intro hk hc
    rw [← hblocks] at hc
    have h1 : (encauth_setup hmac randId randIv master s plainLen).1 =
        session_next_id hmac randIv master s := by
      simp only [encauth_setup, if_neg hk,
        if_pos (show s.counter + blocksOf plainLen > MAX_BLOCKS_PER_SESSION from hc)]
    rw [h1]
    exact ⟨inc32_leVal s.id hid hwid, rfl, rfl, rfl⟩
  · intro hk hc
    rw [← hblocks] at hc
    have h1 : (encauth_setup hmac randId randIv master s plainLen).1 =
        { s with ivSuffix := inc_iv s.ivSuffix,
                 counter := s.counter + blocksOf plainLen } := by
      simp only [encauth_setup, if_neg hk,
        if_neg (show ¬ s.counter + blocksOf plainLen > MAX_BLOCKS_PER_SESSION by
          simp only [MAX_BLOCKS_PER_SESSION]; omega)]
    rw [h1]
    exact ⟨inc_iv_spec s.ivSuffix hiv hwiv, rfl, rfl, rfl⟩

/-- Witness for `c1_encauth_setup_session_advance` at concrete inputs: a
non-rotating advance with one 16-byte block adds one to the counter. -/
theorem c1_encauth_setup_session_advance_witness :
    (([1, 2, 3, 4] : List Nat).length = 4 ∧ bytesWF [1, 2, 3, 4] ∧
     ([9, 0, 0, 0, 0, 0, 0, 0] : List Nat).length = 8 ∧
     bytesWF [9, 0, 0, 0, 0, 0, 0, 0]) ∧
    (encauth_setup (fun _ _ => [7]) [6, 6, 6, 6] [8, 8, 8, 8, 8, 8, 8, 8]
      ⟨[0, 0, 0, 3], [], [0, 0, 0, 0], [], [0, 0, 0, 0], []⟩
      ⟨[1, 2, 3, 4], [9, 0, 0, 0, 0, 0, 0, 0], 2, [1]⟩ 16).1.counter =
      2 + (16 + 15) / 16 := by
  refine ⟨⟨rfl, by decide, rfl, by decide⟩, ?_⟩
  have h := c1_encauth_setup_session_advance (fun _ _ => [7]) [6, 6, 6, 6]
    [8, 8, 8, 8, 8, 8, 8, 8]
    ⟨[0, 0, 0, 3], [], [0, 0, 0, 0], [], [0, 0, 0, 0], []⟩
    ⟨[1, 2, 3, 4], [9, 0, 0, 0, 0, 0, 0, 0], 2, [1]⟩ 16
    rfl (by decide) rfl (by decide)
  exact (h.2.2.1 (by decide) (by decide)).2.2.2

/-- **C1** counterexample: with a live session (key non-empty, counter 0)
whose IV suffix is `[0xff, 0, 0, 0, 0, 0, 0, 0]` (value 255), encoding one
block takes the non-rotating branch, and the new IV suffix is
`[0xff, 1, 0, 0, 0, 0, 0, 0]` (value 511) — not the 64-bit little-endian
increment `[0, 1, 0, 0, 0, 0, 0, 0]` (value 256) stated by the claim. -/
theorem c1_counterexample :
    (⟨[1, 2, 3, 4], [255, 0, 0, 0, 0, 0, 0, 0], 0, [1]⟩ : Session).key.length ≠ 0 ∧
    (⟨[1, 2, 3, 4], [255, 0, 0, 0, 0, 0, 0, 0], 0, [1]⟩ : Session).counter +
      blocksOf 16 ≤ 1024 ∧
    (encauth_setup (fun _ _ => []) [0, 0, 0, 0] [0, 0, 0, 0, 0, 0, 0, 0]
        ⟨[0, 0, 0, 3], [], [0, 0, 0, 0], [], [0, 0, 0, 0], []⟩
        ⟨[1, 2, 3, 4], [255, 0, 0, 0, 0, 0, 0, 0], 0, [1]⟩ 16).1.ivSuffix =
      [255, 1, 0, 0, 0, 0, 0, 0] ∧
    (encauth_setup (fun _ _ => []) [0, 0, 0, 0] [0, 0, 0, 0, 0, 0, 0, 0]
        ⟨[0, 0, 0, 3], [], [0, 0, 0, 0], [], [0, 0, 0, 0], []⟩
        ⟨[1, 2, 3, 4], [255, 0, 0, 0, 0, 0, 0, 0], 0, [1]⟩ 16).1.ivSuffix ≠
      le64 ((leVal [255, 0, 0, 0, 0, 0, 0, 0] + 1) % 2 ^ 64) := by
  refine ⟨by decide, by decide, by decide, ?_⟩
  intro hcontra
  have h1 : (encauth_setup (fun _ _ => []) [0, 0, 0, 0] [0, 0, 0, 0, 0, 0, 0, 0]
      ⟨[0, 0, 0, 3], [], [0, 0, 0, 0], [], [0, 0, 0, 0], []⟩
      ⟨[1, 2, 3, 4], [255, 0, 0, 0, 0, 0, 0, 0], 0, [1]⟩ 16).1.ivSuffix =
      [255, 1, 0, 0, 0, 0, 0, 0] := by decide
  have h2 : ((leVal [255, 0, 0, 0, 0, 0, 0, 0] + 1) % 2 ^ 64) = 256 := by decide
  have h3 : le64 256 = [0, 1, 0, 0, 0, 0, 0, 0] := by decide
  rw [h1, h2, h3] at hcontra
  exact absurd hcontra (by decide)

/-! ### Token codec (`keys_to_tokens` / `tokens_to_keys`)

Key material is serialized with the big-endian, CDR-aligned serializer:
4-byte octet arrays are raw, each octet sequence is a 4-byte-aligned
`uint32` length followed by the raw bytes.  The padding inserted before
re-aligning to 4 is explicit below, matching the positions the C++
`Serializer` with `ALIGN_CDR` pads (after `sender_key_id` and after
`receiver_specific_key_id`, whose offsets are `12 + n` and
`16 + n1 + pad1 + n2` from the start of the buffer). -/

/-- Padding needed to re-align to 4 after `n` sequence bytes. -/
def padOf (n : Nat) : Nat := (4 - n % 4) % 4

/-- CDR serialization of `KeyMaterial_AES_GCM_GMAC` (big-endian, aligned). -/
def serKeyMat (k : KeyMat) : List Nat :=
  k.kind ++ u32be k.salt.length ++ k.salt ++ k.skid ++
  List.replicate (padOf k.salt.length) 0 ++
  u32be k.msk.length ++ k.msk ++ k.rkid ++
  List.replicate (padOf k.msk.length) 0 ++
  u32be k.mrsk.length ++ k.mrsk

/-- Read a big-endian `uint32`. -/
def parseU32be : List Nat → Option (Nat × List Nat)
  | b0 :: b1 :: b2 :: b3 :: rest =>
    some (((b0 * 256 + b1) * 256 + b2) * 256 + b3, rest)
  | _ => none

/-- Read exactly `n` bytes. -/
def takeN (n : Nat) (l : List Nat) : Option (List Nat × List Nat) :=
  if n ≤ l.length then some (l.take n, l.drop n) else none

/-- CDR deserialization of `KeyMaterial_AES_GCM_GMAC`, the inverse
direction of `serKeyMat` (`operator>>` on the same `Serializer`
configuration); any truncation makes the whole parse fail, as the C++
serializer's `good_bit` does. -/
def deserKeyMat (l : List Nat) : Option KeyMat := do
  let (kind, r1) ← takeN 4 l
  let (n1, r2) ← parseU32be r1
  let (salt, r3) ← takeN n1 r2
  let (skid, r4) ← takeN 4 r3
  let (_, r5) ← takeN (padOf n1) r4
  let (n2, r6) ← parseU32be r5
  let (msk, r7) ← takeN n2 r6
  let (rkid, r8) ← takeN 4 r7
  let (_, r9) ← takeN (padOf n2) r8
  let (n3, r10) ← parseU32be r9
  let (mrsk, _) ← takeN n3 r10
  pure ⟨kind, salt, skid, msk, rkid, mrsk⟩

/-- `Crypto_Token_Class_Id`. -/
def cryptoTokenClassId : String := "DDS:Crypto:AES_GCM_GMAC"

/-- `Token_KeyMat_Name`. -/
def tokenKeyMatName : String := "dds.cryp.keymat"

/-- A `DDS::BinaryProperty_t`. -/
structure BinProp where
  name : String
  propagate : Bool
  value : List Nat
deriving DecidableEq

/-- A `CryptoToken` (`class_id` plus binary properties). -/
structure CryptoTokenM where
  classId : String
  props : List BinProp
deriving DecidableEq

/-- `keys_to_tokens`: one token per key material, class id
`DDS:Crypto:AES_GCM_GMAC`, a single propagated binary property
`dds.cryp.keymat` holding the CDR serialization.  (The C++ code only
pushes the token when serialization into the `gen_find_size`-sized buffer
succeeds, which it always does.) -/
def keys_to_tokens (ks : List KeyMat) : List CryptoTokenM :=
  ks.map fun k =>
    ⟨cryptoTokenClassId, [⟨tokenKeyMatName, true, serKeyMat k⟩]⟩

/-- Keys contributed by one token: skipped unless the class id matches;
the first property named `dds.cryp.keymat` is deserialized (the C++ inner
loop breaks at the first name match); a parse failure drops the token. -/
def tokenKeys (t : CryptoTokenM) : List KeyMat :=
  if t.classId == cryptoTokenClassId then
    match t.props.find? (fun p => p.name == tokenKeyMatName) with
    | some p =>
      match deserKeyMat p.value with
      | some k => [k]
      | none => []
    | none => []
  else []

/-- `tokens_to_keys`: concatenation of each token's contribution, in
order. -/
def tokens_to_keys : List CryptoTokenM → List KeyMat
  | [] => []
  | t :: rest => tokenKeys t ++ tokens_to_keys rest

/-- Well-formed key material: 4-byte arrays have length 4 and sequence
lengths fit the `uint32` length fields (as CORBA sequences always do). -/
def wfKeyMat (k : KeyMat) : Prop :=
  k.kind.length = 4 ∧ k.skid.length = 4 ∧ k.rkid.length = 4 ∧
  k.salt.length < 2 ^ 32 ∧ k.msk.length < 2 ^ 32 ∧ k.mrsk.length < 2 ^ 32

instance (k : KeyMat) : Decidable (wfKeyMat k) := by
  unfold wfKeyMat; infer_instance

theorem takeN_append (n : Nat) (a r : List Nat) (h : a.length = n) :
    takeN n (a ++ r) = some (a, r) := by
  subst h
  rw [takeN, if_pos (by simp), List.take_left, List.drop_left]

theorem parseU32be_u32be (n : Nat) (h : n < 2 ^ 32) (r : List Nat) :
    parseU32be (u32be n ++ r) = some (n, r) := by
  simp only [u32be, List.cons_append, List.nil_append, parseU32be]
  congr 1
  congr 1
  omega

theorem takeN_all (l : List Nat) : takeN l.length l = some (l, []) := by
  rw [takeN, if_pos le_rfl, List.take_length, List.drop_length]

theorem deserKeyMat_serKeyMat (k : KeyMat) (h : wfKeyMat k) :
    deserKeyMat (serKeyMat k) = some k := by
  obtain ⟨hk, hs, hr, h1, h2, h3⟩ := h
  rw [serKeyMat, deserKeyMat]
  simp only [List.append_assoc]
  rw [takeN_append 4 k.kind _ hk]
  simp only [Option.some_bind, Option.bind_eq_bind]
  rw [parseU32be_u32be k.salt.length h1]
  simp only [Option.some_bind]
  rw [takeN_append k.salt.length k.salt _ rfl]
  simp only [Option.some_bind]
  rw [takeN_append 4 k.skid _ hs]
  simp only [Option.some_bind]
  rw [takeN_append (padOf k.salt.length) _ _ (List.length_replicate _ _)]
  simp only [Option.some_bind]
  rw [parseU32be_u32be k.msk.length h2]
  simp only [Option.some_bind]
  rw [takeN_append k.msk.length k.msk _ rfl]
  simp only [Option.some_bind]
  rw [takeN_append 4 k.rkid _ hr]
  simp only [Option.some_bind]
  rw [takeN_append (padOf k.msk.length) _ _ (List.length_replicate _ _)]
  simp only [Option.some_bind]
  rw [parseU32be_u32be k.mrsk.length h3]
  simp only [Option.some_bind]
  rw [takeN_all k.mrsk]
  rfl

/-- **C2**: `tokens_to_keys` after `keys_to_tokens` gives back the same
keys, in the same order, byte-for-byte (hence in particular for a
single-element list), for every list of well-formed key materials. -/
theorem c2_token_roundtrip (ks : List KeyMat) (h : ∀ k ∈ ks, wfKeyMat k) :
    tokens_to_keys (keys_to_tokens ks) = ks := by
  induction ks with
  | nil => rfl
  | cons k rest ih =>
    have hk : wfKeyMat k := h k (List.mem_cons_self _ _)
    have hrest : ∀ x ∈ rest, wfKeyMat x :=
      fun x hx => h x (List.mem_cons_of_mem _ hx)
    simp only [keys_to_tokens, List.map_cons] at *
    rw [tokens_to_keys]
    have hhead : tokenKeys
        ⟨cryptoTokenClassId, [⟨tokenKeyMatName, true, serKeyMat k⟩]⟩ = [k] := by
      rw [tokenKeys]
      simp only [beq_self_eq_true, if_true, List.find?_cons_of_pos]
      rw [deserKeyMat_serKeyMat k hk]
    rw [hhead, ih hrest]
    rfl

/-- Witness for `c2_token_roundtrip`: a two-element list whose sequence
lengths exercise the alignment padding (3- and 5-byte salts). -/
theorem c2_token_roundtrip_witness :
    (∀ k ∈ ([⟨[0, 0, 0, 4], [1, 2, 3], [9, 0, 0, 0], [4, 5, 6, 7, 8], [0, 0, 0, 0], []⟩,
             ⟨[0, 0, 0, 3], [], [2, 0, 0, 0], [11], [0, 0, 0, 0], [12, 13]⟩] :
      List KeyMat), wfKeyMat k) ∧
    tokens_to_keys (keys_to_tokens
      [⟨[0, 0, 0, 4], [1, 2, 3], [9, 0, 0, 0], [4, 5, 6, 7, 8], [0, 0, 0, 0], []⟩,
       ⟨[0, 0, 0, 3], [], [2, 0, 0, 0], [11], [0, 0, 0, 0], [12, 13]⟩]) =
      [⟨[0, 0, 0, 4], [1, 2, 3], [9, 0, 0, 0], [4, 5, 6, 7, 8], [0, 0, 0, 0], []⟩,
       ⟨[0, 0, 0, 3], [], [2, 0, 0, 0], [11], [0, 0, 0, 0], [12, 13]⟩] := by
  constructor
  · decide
  · exact c2_token_roundtrip _ (by decide)

/-! ### Registry state

The C++ registries are `std::map` / `std::multimap`; they are embedded as
association lists.  `mset` is `operator[] = v` (overwrite or append),
`mGetOrIns` is a read through `operator[]` (which default-inserts a missing
entry), `merase` is `erase`, and the multimap is a plain list of pairs
whose `equal_range` is an order-preserving filter. -/

/-- `std::map::operator[] = v`: overwrite in place, or append a new entry. -/
def mset {K V : Type} [BEq K] (m : List (K × V)) (k : K) (v : V) :
    List (K × V) :=
  if (List.lookup k m).isSome then
    m.map (fun p => if p.1 == k then (p.1, v) else p)
  else m ++ [(k, v)]

/-- A read through `std::map::operator[]`: returns the mapped value and the
map, default-inserting a missing entry. -/
def mGetOrIns {K V : Type} [BEq K] (m : List (K × V)) (k : K) (d : V) :
    V × List (K × V) :=
  match List.lookup k m with
  | some v => (v, m)
  | none => (d, m ++ [(k, d)])

/-- `DATAWRITER_SUBMESSAGE` / `DATAREADER_SUBMESSAGE` entity kinds. -/
inductive EKind
  | datawriterSm
  | datareaderSm
deriving DecidableEq

/-- `EntityInfo`: the category and handle stored in the
`participant_to_entity_` multimap. -/
structure EntityInfo where
  kind : EKind
  handle : Nat
deriving DecidableEq

/-- The fields of `EndpointSecurityAttributes` the registry consults:
`is_submessage_protected` (`submessage_`), `is_payload_protected`
(`payload_`), and the plugin attribute mask. -/
structure EndpointSecAttr where
  submessage : Bool
  payload : Bool
  pluginMask : Nat
deriving DecidableEq

/-- Modelled from the spec: the value a default-inserted
`encrypt_options_` entry carries (the mapped type's default constructor is
outside the sources); the spec treats an endpoint with no options entry as
unprotected ("no entry ... ⇒ output equals input", §4.4). -/
def defaultAttr : EndpointSecAttr := ⟨false, false, 0⟩

/-- The registry: next handle to issue, `keys_`, `participant_to_entity_`,
`encrypt_options_`, `sessions_`. -/
structure CState where
  nextHandle : Nat
  keys : List (Nat × List KeyMat)
  p2e : List (Nat × EntityInfo)
  eo : List (Nat × EndpointSecAttr)
  sessions : List ((Nat × Nat) × Session)
deriving DecidableEq

/-- Modelled from the spec: `generate_handle` wraps
`CommonUtilities::increment_handle` (outside the sources); handles are
"issued from a monotonically incrementing counter" and never repeat
(spec §3), the counter starting at 1 (`next_handle_(1)`). -/
def generateHandle (st : CState) : Nat × CState :=
  (st.nextHandle, { st with nextHandle := st.nextHandle + 1 })

/-- A `DDS::Security::SecurityException` as filled by
`set_security_error`. -/
structure SecErr where
  code : Int
  minor : Int
  msg : String
deriving DecidableEq

/-! Frame lemmas for the association-map operations. -/

theorem lookup_filter_none {K V : Type} [BEq K] [LawfulBEq K]
    (m : List (K × V)) (pred : K → Bool) (k : K) (hk : pred k = false) :
    List.lookup k (m.filter (fun q => pred q.1)) = none := by
  induction m with
  | nil => rfl
  | cons q t ih =>
    obtain ⟨qk, qv⟩ := q
    rw [List.filter_cons]
    by_cases hq : pred qk = true
    · have hne : (k == qk) = false := beq_eq_false_iff_ne.mpr
        (fun hc => by rw [hc, hq] at hk; exact absurd hk (by simp))
      simp [hq, hne, List.lookup_cons, ih]
    · simp only [Bool.not_eq_true] at hq
      simp [hq, ih]

theorem lookup_filter_eq {K V : Type} [BEq K] [LawfulBEq K]
    (m : List (K × V)) (pred : K → Bool) (k : K) (hk : pred k = true) :
    List.lookup k (m.filter (fun q => pred q.1)) = List.lookup k m := by
  induction m with
  | nil => rfl
  | cons q t ih =>
    obtain ⟨qk, qv⟩ := q
    rw [List.filter_cons]
    by_cases hq : pred qk = true
    · by_cases hkq : (k == qk) = true
      · simp [hq, hkq, List.lookup_cons]
      · simp only [Bool.not_eq_true] at hkq
        simp [hq, hkq, List.lookup_cons, ih]
    · simp only [Bool.not_eq_true] at hq
      have hne : (k == qk) = false := beq_eq_false_iff_ne.mpr
        (fun hc => by rw [hc, hq] at hk; exact absurd hk (by simp))
      simp [hq, hne, List.lookup_cons, ih]

theorem lookup_map_upd_self {K V : Type} [BEq K] [LawfulBEq K]
    (m : List (K × V)) (k : K) (v : V) :
    List.lookup k (m.map (fun p => if p.1 == k then (p.1, v) else p)) =
      (List.lookup k m).map (fun _ => v) := by
  induction m with
  | nil => rfl
  | cons q t ih =>
    obtain ⟨qk, qv⟩ := q
    by_cases hq : qk = k
    · subst hq
      simp [List.lookup_cons, ih]
    · have h1 : (qk == k) = false := beq_eq_false_iff_ne.mpr hq
      have h2 : (k == qk) = false := beq_eq_false_iff_ne.mpr
        (fun hc => hq hc.symm)
      simp [List.lookup_cons, h1, h2, ih]


theorem lookup_map_upd_other {K V : Type} [BEq K] [LawfulBEq K]
    (m : List (K × V)) (k k' : K) (v : V) (h : (k' == k) = false) :
    List.lookup k' (m.map (fun p => if p.1 == k then (p.1, v) else p)) =
      List.lookup k' m := by
  induction m with
  | nil => rfl
  | cons q t ih =>
    obtain ⟨qk, qv⟩ := q
    by_cases hq : qk = k
    · subst hq
      simp [List.lookup_cons, h, ih]
    · have h1 : (qk == k) = false := beq_eq_false_iff_ne.mpr hq
      simp [List.lookup_cons, h1, ih]

theorem lookup_mset_self {K V : Type} [BEq K] [LawfulBEq K]
    (m : List (K × V)) (k : K) (v : V) :
    List.lookup k (mset m k v) = some v := by
  rw [mset]
  cases hm : List.lookup k m with
  | some u =>
    rw [if_pos (by simp), lookup_map_upd_self, hm]
    rfl
  | none =>
    rw [if_neg (by simp), List.lookup_append, hm]
    simp [List.lookup_cons]

theorem lookup_mset_other {K V : Type} [BEq K] [LawfulBEq K]
    (m : List (K × V)) (k k' : K) (v : V) (h : (k' == k) = false) :
    List.lookup k' (mset m k v) = List.lookup k' m := by
  rw [mset]
  cases hm : List.lookup k m with
  | some u =>
    rw [if_pos (by simp), lookup_map_upd_other m k k' v h]
  | none =>
    rw [if_neg (by simp), List.lookup_append]
    have hz : List.lookup k' [(k, v)] = none := by
      simp [List.lookup_cons, h]
    rw [hz, Option.or_none]

theorem lookup_mGetOrIns_other {K V : Type} [BEq K] [LawfulBEq K]
    (m : List (K × V)) (k k' : K) (d : V) (h : (k' == k) = false) :
    List.lookup k' (mGetOrIns m k d).2 = List.lookup k' m := by
  rw [mGetOrIns]
  cases hm : List.lookup k m with
  | some v => rfl
  | none =>
    simp only []
    rw [List.lookup_append]
    have hz : List.lookup k' [(k, d)] = none := by
      simp [List.lookup_cons, h]
    rw [hz, Option.or_none]

theorem lookup_mGetOrIns_self {K V : Type} [BEq K] [LawfulBEq K]
    (m : List (K × V)) (k : K) (d : V) :
    List.lookup k (mGetOrIns m k d).2 = some (mGetOrIns m k d).1 := by
  rw [mGetOrIns]
  cases hm : List.lookup k m with
  | some v => exact hm
  | none =>
    simp only []
    rw [List.lookup_append, hm]
    simp [List.lookup_cons]

/-! ### Decode pipeline — sender key lookup (`preprocess_secure_submsg`) -/

/-- `participant_to_entity_.equal_range(h)`: the entities registered under
participant `h`, in insertion order. -/
def equalRange (p2e : List (Nat × EntityInfo)) (h : Nat) : List EntityInfo :=
  (p2e.filter (fun q => q.1 == h)).map (fun q => q.2)

/-- The loop of `preprocess_secure_submsg`: walk the enumerated entities;
for an entity with a key list, scan it for a key matching the header
(`matches`); the first hit wins. -/
def firstEntityMatch (keys : List (Nat × List KeyMat)) (ch : CryptoHeaderM) :
    List EntityInfo → Option EntityInfo
  | [] => none
  | e :: rest =>
    match List.lookup e.handle keys with
    | some ks =>
      if ks.any (fun k => matchesHdr k ch) then some e
      else firstEntityMatch keys ch rest
    | none => firstEntityMatch keys ch rest

/-- `CryptoBuiltInImpl::preprocess_secure_submsg` after the header has been
parsed from the SEC_PREFIX submessage (the parse only reads the input
buffer): guard both participant handles, then look the sending entity up;
on success the category is the stored entity kind and the matching handle
is assigned; otherwise fail with code −2 minor 1. -/
def preprocess_secure_submsg (st : CState) (recvP sendP : Nat)
    (ch : CryptoHeaderM) : Except SecErr (EKind × Nat) :=
  if recvP = 0 then .error ⟨-1, 0, "Invalid Receiving Participant"⟩
  else if sendP = 0 then .error ⟨-1, 0, "Invalid Sending Participant"⟩
  else
    match firstEntityMatch st.keys ch (equalRange st.p2e sendP) with
    | some e => .ok (e.kind, e.handle)
    | none => .error ⟨-2, 1, "Crypto Key not registered"⟩

theorem firstEntityMatch_eq_find (keys : List (Nat × List KeyMat))
    (ch : CryptoHeaderM) (l : List EntityInfo) :
    firstEntityMatch keys ch l =
      l.find? (fun e => ((List.lookup e.handle keys).getD []).any
        (fun k => matchesHdr k ch)) := by
  induction l with
  | nil => rfl
  | cons e rest ih =>
    rw [firstEntityMatch]
    cases hl : List.lookup e.handle keys with
    | some ks =>
      dsimp only
      by_cases ha : ks.any (fun k => matchesHdr k ch) = true
      · rw [if_pos ha, List.find?_cons_of_pos]
        rw [hl]
        exact ha
      · rw [Bool.not_eq_true] at ha
        rw [if_neg (by rw [ha]; simp), ih, List.find?_cons_of_neg]
        rw [hl]
        simp [ha]
    | none =>
      dsimp only
      rw [ih, List.find?_cons_of_neg]
      rw [hl]
      simp

/-- **C3**: with non-nil receiving and sending participant handles,
`preprocess_secure_submsg` succeeds exactly on the first enumerated entity
of the sending participant whose key list contains a key whose
`transformation_kind` bytes and `sender_key_id` bytes both equal the
header's transform identifier, returning that entity's kind
(writer/reader) and handle; with no such entity it fails with code −2
minor 1, message "Crypto Key not registered". -/
theorem c3_preprocess_first_match (st : CState) (recvP sendP : Nat)
    (ch : CryptoHeaderM) (hr : recvP ≠ 0) (hs : sendP ≠ 0) :
    preprocess_secure_submsg st recvP sendP ch =
      match (equalRange st.p2e sendP).find?
          (fun e => ((List.lookup e.handle st.keys).getD []).any
            (fun k => k.kind == ch.kind && k.skid == ch.keyId)) with
      | some e => .ok (e.kind, e.handle)
      | none => .error ⟨-2, 1, "Crypto Key not registered"⟩ := by
  rw [preprocess_secure_submsg, if_neg hr, if_neg hs,
    firstEntityMatch_eq_find]
  rfl

/-- Witness for `c3_preprocess_first_match`: a registry where the second
entity of the sending participant holds the matching key; the first match
is the datareader entity with handle 8. -/
theorem c3_preprocess_first_match_witness :
    (7 : Nat) ≠ 0 ∧ (3 : Nat) ≠ 0 ∧
    preprocess_secure_submsg
      ⟨9,
       [(5, [⟨[0, 0, 0, 4], [1], [5, 0, 0, 0], [2], [0, 0, 0, 0], []⟩]),
        (8, [⟨[0, 0, 0, 3], [1], [8, 0, 0, 0], [2], [0, 0, 0, 0], []⟩])],
       [(3, ⟨EKind.datawriterSm, 5⟩), (3, ⟨EKind.datareaderSm, 8⟩),
        (4, ⟨EKind.datawriterSm, 6⟩)],
       [], []⟩
      7 3 ⟨[0, 0, 0, 3], [8, 0, 0, 0], [0, 0, 0, 0], [0, 0, 0, 0, 0, 0, 0, 0]⟩ =
      .ok (EKind.datareaderSm, 8) := by
  refine ⟨by decide, by decide, ?_⟩
  rw [c3_preprocess_first_match _ _ _ _ (by decide) (by decide)]
  rfl

/-! ### Encode pipeline — serialized payload (`encode_serialized_payload`) -/

/-- Outcome of `encode_serialized_payload` up to the cryptographic
transform: an error, success returning the given buffer unchanged, or the
transform (encrypt/authtag/unrecognized-kind dispatch) applied with the key
at the given index. -/
inductive PayloadEncodeResult
  | err (e : SecErr)
  | plainOut (buf : List Nat)
  | transform (idx : Nat)
deriving DecidableEq

/-- `CryptoBuiltInImpl::encode_serialized_payload` up to the transform:
guard the handle; pass the buffer through unchanged when the writer has no
key entry (checked before `encrypt_options_[h]` is read, short-circuiting
the default insertion), when its payload protection is off, or when its
key list is empty; otherwise select key index 1 if the list has at least
two keys, else 0 (`key_idx`). -/
def encode_serialized_payload_select (st : CState) (plain : List Nat)
    (h : Nat) : CState × PayloadEncodeResult :=
  if h = 0 then (st, .err ⟨-1, 0, "Invalid datawriter handle"⟩)
  else if (List.lookup h st.keys).isSome = false then (st, .plainOut plain)
  else if (mGetOrIns st.eo h defaultAttr).1.payload = false then
    ({ st with eo := (mGetOrIns st.eo h defaultAttr).2 }, .plainOut plain)
  else if ((List.lookup h st.keys).getD []).length = 0 then
    ({ st with eo := (mGetOrIns st.eo h defaultAttr).2 }, .plainOut plain)
  else ({ st with eo := (mGetOrIns st.eo h defaultAttr).2 },
    .transform (if ((List.lookup h st.keys).getD []).length ≥ 2 then 1 else 0))

/-- **C4**: for a non-nil writer handle, `encode_serialized_payload`
returns the plain buffer unchanged (success) when the handle has no key
entry, its key list is empty, or its payload-protection option (an absent
entry reads as the default, unprotected) is off; otherwise the transform
uses key index 1 when the list has length ≥ 2 and index 0 otherwise. -/
theorem c4_payload_passthrough_and_key_choice (st : CState)
    (plain : List Nat) (h : Nat) (hnz : h ≠ 0) :
    ((List.lookup h st.keys = none ∨ List.lookup h st.keys = some [] ∨
        ((List.lookup h st.eo).getD defaultAttr).payload = false) →
      (encode_serialized_payload_select st plain h).2 = .plainOut plain) ∧
    (∀ ks, List.lookup h st.keys = some ks → ks ≠ [] →
      ((List.lookup h st.eo).getD defaultAttr).payload = true →
      (encode_serialized_payload_select st plain h).2 =
        .transform (if ks.length ≥ 2 then 1 else 0)) := by
  have hopt : (mGetOrIns st.eo h defaultAttr).1 =
      (List.lookup h st.eo).getD defaultAttr := by
    rw [mGetOrIns]
    cases List.lookup h st.eo <;> rfl
  constructor
  · intro hcase
    rw [encode_serialized_payload_select, if_neg hnz]
    rcases hcase with hnone | hempty | hoff
    · rw [if_pos (by rw [hnone]; rfl)]
    · rw [if_neg (by rw [hempty]; simp)]
      by_cases hpay : (mGetOrIns st.eo h defaultAttr).1.payload = false
      · rw [if_pos hpay]
      · rw [if_neg hpay, if_pos (by rw [hempty]; rfl)]
    · by_cases hks : (List.lookup h st.keys).isSome = false
      · rw [if_pos hks]
      · rw [if_neg hks, if_pos (by rw [hopt, hoff])]
  · intro ks hks hne hon
    rw [encode_serialized_payload_select, if_neg hnz,
      if_neg (by rw [hks]; simp),
      if_neg (by rw [hopt, hon]; simp),
      if_neg (by rw [hks]; simpa using hne)]
    rw [hks]
    rfl

/-- Witness for `c4_payload_passthrough_and_key_choice`: a writer with two
keys and payload protection on selects key index 1. -/
theorem c4_payload_passthrough_and_key_choice_witness :
    (5 : Nat) ≠ 0 ∧
    (encode_serialized_payload_select
      ⟨9,
       [(5, [⟨[0, 0, 0, 3], [1], [5, 0, 0, 0], [2], [0, 0, 0, 0], []⟩,
             ⟨[0, 0, 0, 4], [1], [6, 0, 0, 0], [2], [0, 0, 0, 0], []⟩])],
       [], [(5, ⟨false, true, 2⟩)], []⟩
      [1, 2, 3] 5).2 = .transform 1 := by
  refine ⟨by decide, ?_⟩
  have h := (c4_payload_passthrough_and_key_choice
    ⟨9,
     [(5, [⟨[0, 0, 0, 3], [1], [5, 0, 0, 0], [2], [0, 0, 0, 0], []⟩,
           ⟨[0, 0, 0, 4], [1], [6, 0, 0, 0], [2], [0, 0, 0, 0], []⟩])],
     [], [(5, ⟨false, true, 2⟩)], []⟩
    [1, 2, 3] 5 (by decide)).2
    [⟨[0, 0, 0, 3], [1], [5, 0, 0, 0], [2], [0, 0, 0, 0], []⟩,
     ⟨[0, 0, 0, 4], [1], [6, 0, 0, 0], [2], [0, 0, 0, 0], []⟩]
    (by decide) (by decide) (by decide)
  simpa using h

/-! ### Unregistration (`unregister_*`, `clear_endpoint_data`) -/

/-- `CryptoBuiltInImpl::clear_endpoint_data`: erase the handle's `keys_`
and `encrypt_options_` entries, every `participant_to_entity_` entry whose
stored entity handle is the handle, and every session whose key's first
element is the handle. -/
def clear_endpoint_data (st : CState) (h : Nat) : CState :=
  { st with
    keys := st.keys.filter (fun q => q.1 != h),
    eo := st.eo.filter (fun q => q.1 != h),
    p2e := st.p2e.filter (fun q => q.2.handle != h),
    sessions := st.sessions.filter (fun q => q.1.1 != h) }

/-- `CryptoBuiltInImpl::unregister_participant`: guards the handle and
returns; no registry state is touched. -/
def unregister_participant (st : CState) (h : Nat) : CState × Bool :=
  if h = 0 then (st, false) else (st, true)

/-- `CryptoBuiltInImpl::unregister_datawriter`: guard, then
`clear_endpoint_data`. -/
def unregister_datawriter (st : CState) (h : Nat) : CState × Bool :=
  if h = 0 then (st, false) else (clear_endpoint_data st h, true)

/-- `CryptoBuiltInImpl::unregister_datareader`: guard, then
`clear_endpoint_data`. -/
def unregister_datareader (st : CState) (h : Nat) : CState × Bool :=
  if h = 0 then (st, false) else (clear_endpoint_data st h, true)

/-- **C8** counterexample: `unregister_participant` erases nothing.  In a
registry whose `keys_` map holds an entry for handle 5 (as
`set_remote_participant_crypto_tokens` creates for remote participants),
unregistering participant 5 reports success yet the entry is still
present, contradicting the claim for the `unregister_participant` case. -/
theorem c8_counterexample :
    (unregister_participant
      ⟨6, [(5, [⟨[0, 0, 0, 4], [1], [5, 0, 0, 0], [2], [0, 0, 0, 0], []⟩])],
       [], [], []⟩ 5).2 = true ∧
    List.lookup 5 (unregister_participant
      ⟨6, [(5, [⟨[0, 0, 0, 4], [1], [5, 0, 0, 0], [2], [0, 0, 0, 0], []⟩])],
       [], [], []⟩ 5).1.keys =
      some [⟨[0, 0, 0, 4], [1], [5, 0, 0, 0], [2], [0, 0, 0, 0], []⟩] := by
  constructor
  · rfl
  · rfl

/-- **C8** (amended): for `unregister_datawriter` and
`unregister_datareader` with a non-nil handle H, after the call `keys` and
`encrypt_options` contain no entry with key H, `participant_to_entity`
contains no entry whose stored entity handle equals H, every session entry
whose (handle, key-index) key has first element H is erased, and all
entries for other handles are unchanged; `unregister_participant` with a
non-nil handle returns success and leaves the whole registry unchanged. -/
theorem c8_unregister_behaviour (st : CState) (h : Nat) (hnz : h ≠ 0) :
    (unregister_datawriter st h).2 = true ∧
    List.lookup h (unregister_datawriter st h).1.keys = none ∧
    (∀ h', h' ≠ h → List.lookup h' (unregister_datawriter st h).1.keys =
      List.lookup h' st.keys) ∧
    List.lookup h (unregister_datawriter st h).1.eo = none ∧
    (∀ h', h' ≠ h → List.lookup h' (unregister_datawriter st h).1.eo =
      List.lookup h' st.eo) ∧
    (∀ q ∈ (unregister_datawriter st h).1.p2e, q.2.handle ≠ h) ∧
    (∀ q ∈ st.p2e, q.2.handle ≠ h → q ∈ (unregister_datawriter st h).1.p2e) ∧
    (∀ q ∈ (unregister_datawriter st h).1.p2e, q ∈ st.p2e) ∧
    (∀ p : Nat × Nat, p.1 = h →
      List.lookup p (unregister_datawriter st h).1.sessions = none) ∧
    (∀ p : Nat × Nat, p.1 ≠ h →
      List.lookup p (unregister_datawriter st h).1.sessions =
        List.lookup p st.sessions) ∧
    unregister_datareader st h = unregister_datawriter st h ∧
    unregister_participant st h = (st, true) := by
  have hdw : unregister_datawriter st h = (clear_endpoint_data st h, true) := by
    rw [unregister_datawriter, if_neg hnz]
  rw [hdw]
  refine ⟨rfl, ?_, ?_, ?_, ?_, ?_, ?_, ?_, ?_, ?_, ?_, ?_⟩
  · exact lookup_filter_none st.keys (fun k => k != h) h (by simp)
  · intro h' hne
    exact lookup_filter_eq st.keys (fun k => k != h) h' (by simp [hne])
  · exact lookup_filter_none st.eo (fun k => k != h) h (by simp)
  · intro h' hne
    exact lookup_filter_eq st.eo (fun k => k != h) h' (by simp [hne])
  · intro q hq
    have := List.of_mem_filter hq
    simpa using this
  · intro q hq hne
    exact List.mem_filter.mpr ⟨hq, by simpa using hne⟩
  · intro q hq
    exact List.mem_filter.mp hq |>.1
  · intro p hp
    exact lookup_filter_none st.sessions (fun k => k.1 != h) p (by simp [hp])
  · intro p hp
    exact lookup_filter_eq st.sessions (fun k => k.1 != h) p (by simp [hp])
  · rw [unregister_datareader, if_neg hnz]
  · rw [unregister_participant, if_neg hnz]

/-- Witness for `c8_unregister_behaviour` at a concrete registry with
entries for handles 5 and 6: unregistering writer 5 erases exactly the
handle-5 state. -/
theorem c8_unregister_behaviour_witness :
    (5 : Nat) ≠ 0 ∧
    List.lookup 5 (unregister_datawriter
      ⟨7, [(5, []), (6, [])], [(2, ⟨EKind.datawriterSm, 5⟩)],
       [(5, ⟨true, false, 0⟩), (6, ⟨false, true, 1⟩)],
       [((5, 0), defaultSession), ((6, 0), defaultSession)]⟩ 5).1.keys = none ∧
    List.lookup 6 (unregister_datawriter
      ⟨7, [(5, []), (6, [])], [(2, ⟨EKind.datawriterSm, 5⟩)],
       [(5, ⟨true, false, 0⟩), (6, ⟨false, true, 1⟩)],
       [((5, 0), defaultSession), ((6, 0), defaultSession)]⟩ 5).1.sessions =
      none ∧
    List.lookup (6, 0) (unregister_datawriter
      ⟨7, [(5, []), (6, [])], [(2, ⟨EKind.datawriterSm, 5⟩)],
       [(5, ⟨true, false, 0⟩), (6, ⟨false, true, 1⟩)],
       [((5, 0), defaultSession), ((6, 0), defaultSession)]⟩ 5).1.sessions =
      some defaultSession := by
  have h := c8_unregister_behaviour
    ⟨7, [(5, []), (6, [])], [(2, ⟨EKind.datawriterSm, 5⟩)],
     [(5, ⟨true, false, 0⟩), (6, ⟨false, true, 1⟩)],
     [((5, 0), defaultSession), ((6, 0), defaultSession)]⟩ 5 (by decide)
  refine ⟨by decide, h.2.1, by decide, ?_⟩
  rw [h.2.2.2.2.2.2.2.2.2.1 (6, 0) (by decide)]
  rfl

/-! ### Local datawriter registration (`register_local_datawriter`) -/

/-- `is_builtin_volatile`: the first property named
`dds.sec.builtin_endpoint_name` decides; its value must be the volatile
secure writer or reader endpoint name. -/
def is_builtin_volatile : List (String × String) → Bool
  | [] => false
  | (n, v) :: rest =>
    if n == "dds.sec.builtin_endpoint_name" then
      v == "BuiltinParticipantVolatileMessageSecureWriter" ||
      v == "BuiltinParticipantVolatileMessageSecureReader"
    else is_builtin_volatile rest

/-- `FLAG_IS_SUBMESSAGE_ENCRYPTED` — modelled from the spec: the plugin
endpoint attribute bit tested to choose GCM over GMAC for the submessage
key ("GCM if `plugin_attrs & SUBMESSAGE_ENCRYPTED` else GMAC", §4.1); the
numeric value lives in the DDS security parameter header outside the
sources, the claims only use the derived boolean. -/
def FLAG_IS_SUBMESSAGE_ENCRYPTED : Nat := 1

/-- `FLAG_IS_PAYLOAD_ENCRYPTED` — modelled from the spec, 
see `FLAG_IS_SUBMESSAGE_ENCRYPTED`. -/
def FLAG_IS_PAYLOAD_ENCRYPTED : Nat := 2

/-- `CryptoBuiltInImpl::register_local_datawriter`.  The randomness of the
two `make_key` calls (`RAND_bytes` salt and master key) is passed in as
`salt0 msk0 salt1 msk1`.  Returns the updated registry and the handle
(`HANDLE_NIL = 0` on a nil participant handle). -/
def register_local_datawriter (st : CState) (participant : Nat)
    (props : List (String × String)) (attrs : EndpointSecAttr)
    (salt0 msk0 salt1 msk1 : List Nat) : CState × Nat :=
  if participant = 0 then (st, 0)
  else
    let r0 := generateHandle st
    let h := r0.1
    let st1 := r0.2
    let rKeys :=
      if is_builtin_volatile props then ([make_volatile_placeholder], st1)
      else
        let subKeys :=
          if attrs.submessage then
            [make_key h (attrs.pluginMask &&& FLAG_IS_SUBMESSAGE_ENCRYPTED ≠ 0)
              salt0 msk0]
          else []
        if attrs.payload then
          if attrs.submessage then
            let r1 := generateHandle st1
            (subKeys ++ [make_key r1.1
              (attrs.pluginMask &&& FLAG_IS_PAYLOAD_ENCRYPTED ≠ 0) salt1 msk1],
             r1.2)
          else
            (subKeys ++ [make_key h
              (attrs.pluginMask &&& FLAG_IS_PAYLOAD_ENCRYPTED ≠ 0) salt1 msk1],
             st1)
        else (subKeys, st1)
    let st2 := rKeys.2
    ({ st2 with
       keys := mset st2.keys h rKeys.1,
       p2e := st2.p2e ++ [(participant, ⟨EKind.datawriterSm, h⟩)],
       eo := mset st2.eo h attrs }, h)

/-- **C5**: registering a local datawriter under a non-nil participant,
with non-volatile properties and both protections set, stores exactly two
keys under the returned handle H: index 0 the submessage key with
`sender_key_id` the little-endian 4 bytes of H, index 1 the payload key
with `sender_key_id` the little-endian 4 bytes of the freshly generated
handle (the next counter value, H+1); the two `sender_key_id`s differ. -/
theorem c5_register_local_datawriter_two_keys (st : CState)
    (participant : Nat) (props : List (String × String))
    (attrs : EndpointSecAttr) (salt0 msk0 salt1 msk1 : List Nat)
    (hp : participant ≠ 0) (hv : is_builtin_volatile props = false)
    (hsub : attrs.submessage = true) (hpay : attrs.payload = true) :
    (register_local_datawriter st participant props attrs
        salt0 msk0 salt1 msk1).2 = st.nextHandle ∧
    List.lookup st.nextHandle
      (register_local_datawriter st participant props attrs
        salt0 msk0 salt1 msk1).1.keys =
      some [make_key st.nextHandle
              (attrs.pluginMask &&& FLAG_IS_SUBMESSAGE_ENCRYPTED ≠ 0) salt0 msk0,
            make_key (st.nextHandle + 1)
              (attrs.pluginMask &&& FLAG_IS_PAYLOAD_ENCRYPTED ≠ 0) salt1 msk1] ∧
    (make_key st.nextHandle
      (attrs.pluginMask &&& FLAG_IS_SUBMESSAGE_ENCRYPTED ≠ 0) salt0 msk0).skid =
      le32 st.nextHandle ∧
    (make_key (st.nextHandle + 1)
      (attrs.pluginMask &&& FLAG_IS_PAYLOAD_ENCRYPTED ≠ 0) salt1 msk1).skid =
      le32 (st.nextHandle + 1) ∧
    le32 st.nextHandle ≠ le32 (st.nextHandle + 1) := by
  have hred : register_local_datawriter st participant props attrs
      salt0 msk0 salt1 msk1 =
      ({ nextHandle := st.nextHandle + 2,
         keys := mset st.keys st.nextHandle
           [make_key st.nextHandle
             (attrs.pluginMask &&& FLAG_IS_SUBMESSAGE_ENCRYPTED ≠ 0) salt0 msk0,
            make_key (st.nextHandle + 1)
              (attrs.pluginMask &&& FLAG_IS_PAYLOAD_ENCRYPTED ≠ 0) salt1 msk1],
         p2e := st.p2e ++ [(participant, ⟨EKind.datawriterSm, st.nextHandle⟩)],
         eo := mset st.eo st.nextHandle attrs,
         sessions := st.sessions }, st.nextHandle) := by
    rw [register_local_datawriter, if_neg hp]
    simp only [generateHandle, hv, Bool.false_eq_true, if_false, hsub, hpay,
      if_true, List.singleton_append]
  rw [hred]
  refine ⟨rfl, ?_, rfl, rfl, ?_⟩
  · exact lookup_mset_self _ _ _
  · intro hc
    have h0 : (le32 st.nextHandle)[0]! = st.nextHandle % 256 := rfl
    have h1 : (le32 (st.nextHandle + 1))[0]! = (st.nextHandle + 1) % 256 := rfl
    rw [hc] at h0
    rw [h1] at h0
    omega

/-- Witness for `c5_register_local_datawriter_two_keys` at a concrete
registry (next handle 10): the writer stores the submessage key with id
bytes of 10 and the payload key with id bytes of 11. -/
theorem c5_register_local_datawriter_two_keys_witness :
    ((2 : Nat) ≠ 0 ∧ is_builtin_volatile [] = false) ∧
    List.lookup 10
      (register_local_datawriter ⟨10, [], [], [], []⟩ 2 [] ⟨true, true, 3⟩
        [1] [2] [3] [4]).1.keys =
      some [make_key 10 true [1] [2], make_key 11 true [3] [4]] ∧
    (make_key 10 true [1] [2]).skid ≠ (make_key 11 true [3] [4]).skid := by
  have h := c5_register_local_datawriter_two_keys ⟨10, [], [], [], []⟩ 2 []
    ⟨true, true, 3⟩ [1] [2] [3] [4] (by decide) rfl rfl rfl
  refine ⟨⟨by decide, rfl⟩, ?_, ?_⟩
  · have h2 := h.2.1
    simpa using h2
  · have h3 := h.2.2.2.2
    intro hc
    exact h3 (by simpa using hc)

/-! ### Volatile key derivation (`hkdf`, `make_volatile_key`,
`register_matched_remote_datareader`) -/

/-- `KxSaltCookie`: the 16 bytes of `"keyexchange salt"` (no NUL). -/
def kxSaltCookie : List Nat := "keyexchange salt".toList.map Char.toNat

/-- `KxKeyCookie`: the 16 bytes of `"key exchange key"` (no NUL). -/
def kxKeyCookie : List Nat := "key exchange key".toList.map Char.toNat

/-- `hkdf`: HMAC-SHA256 over `data`, keyed by the SHA-256 hash of
`pre ‖ cookie ‖ suf`; the SHA-256 (`SSL::hash`) and HMAC-SHA256
(`EVP_DigestSign*`) primitives are parameters. -/
def hkdf (hash : List Nat → List Nat) (hmac : List Nat → List Nat → List Nat)
    (pre cookie suf data : List Nat) : List Nat :=
  hmac (hash (pre ++ cookie ++ suf)) data

/-- `make_volatile_key`: AES-256-GCM kind; `master_salt` derived with the
salt cookie from `challenge1 ‖ cookie ‖ challenge2`, `master_sender_key`
with the key cookie from `challenge2 ‖ cookie ‖ challenge1`, both over the
shared secret. -/
def make_volatile_key (hash : List Nat → List Nat)
    (hmac : List Nat → List Nat → List Nat)
    (challenge1 challenge2 sharedSec : List Nat) : KeyMat :=
  { kind := [0, 0, 0, KIND_AES256_GCM],
    salt := hkdf hash hmac challenge1 kxSaltCookie challenge2 sharedSec,
    skid := [0, 0, 0, 0],
    msk := hkdf hash hmac challenge2 kxKeyCookie challenge1 sharedSec,
    rkid := [0, 0, 0, 0],
    mrsk := [] }

/-- `CryptoBuiltInImpl::register_matched_remote_datareader`: guard handles
and shared secret, issue a handle, require the local writer's key entry;
when the writer's list is a single volatile placeholder, derive the
volatile key — aborting with a nil handle if either derived field is
empty — and store it under the new handle; finally record the entity under
the remote participant and copy the writer's encrypt options (a read
through `operator[]`, default-inserting). -/
def register_matched_remote_datareader (hash : List Nat → List Nat)
    (hmac : List Nat → List Nat → List Nat) (st : CState)
    (localDW remoteP : Nat)
    (secret : Option (List Nat × List Nat × List Nat)) : CState × Nat :=
  if localDW = 0 then (st, 0)
  else if remoteP = 0 then (st, 0)
  else
    match secret with
    | none => (st, 0)
    | some (c1, c2, s) =>
      let h := (generateHandle st).1
      let st1 := (generateHandle st).2
      match List.lookup localDW st1.keys with
      | none => (st1, 0)
      | some dwKeys =>
        let isVol :=
          match dwKeys with
          | [k] => is_volatile_placeholder k
          | _ => false
        let st2 :=
          if isVol then
            let k := make_volatile_key hash hmac c1 c2 s
            if k.salt.length = 0 ∨ k.msk.length = 0 then none
            else some { st1 with keys := mset st1.keys h [k] }
          else some st1
        match st2 with
        | none => (st1, 0)
        | some st3 =>
          ({ st3 with
             p2e := st3.p2e ++ [(remoteP, ⟨EKind.datareaderSm, h⟩)],
             eo := mset (mGetOrIns st3.eo localDW defaultAttr).2 h
               (mGetOrIns st3.eo localDW defaultAttr).1 }, h)

/-- **C6**: with valid handles, a shared secret, and a local writer whose
key list is exactly one volatile placeholder, the single key stored under
the new reader handle has `master_salt` = HMAC-SHA256 over the shared
secret keyed by the SHA-256 hash of `challenge1 ‖ "keyexchange salt"
(16 bytes, no NUL) ‖ challenge2`, `master_sender_key` = HMAC-SHA256 over
the shared secret keyed by the SHA-256 hash of `challenge2 ‖ "key exchange
key" ‖ challenge1`, and transformation kind AES-256-GCM; if either derived
field is empty, the registration returns the nil handle and the keys map
is unchanged (no key under the new handle). -/
theorem c6_volatile_key_derivation (hash : List Nat → List Nat)
    (hmac : List Nat → List Nat → List Nat) (st : CState)
    (localDW remoteP : Nat) (c1 c2 s : List Nat) (k0 : KeyMat)
    (h1 : localDW ≠ 0) (h2 : remoteP ≠ 0)
    (hk : List.lookup localDW st.keys = some [k0])
    (hvol : is_volatile_placeholder k0 = true) :
    kxSaltCookie.length = 16 ∧ kxKeyCookie.length = 16 ∧
    (hmac (hash (c1 ++ kxSaltCookie ++ c2)) s ≠ [] →
     hmac (hash (c2 ++ kxKeyCookie ++ c1)) s ≠ [] →
      (register_matched_remote_datareader hash hmac st localDW remoteP
        (some (c1, c2, s))).2 = st.nextHandle ∧
      List.lookup st.nextHandle
        (register_matched_remote_datareader hash hmac st localDW remoteP
          (some (c1, c2, s))).1.keys =
        some [⟨[0, 0, 0, KIND_AES256_GCM],
               hmac (hash (c1 ++ kxSaltCookie ++ c2)) s, [0, 0, 0, 0],
               hmac (hash (c2 ++ kxKeyCookie ++ c1)) s, [0, 0, 0, 0], []⟩]) ∧
    ((hmac (hash (c1 ++ kxSaltCookie ++ c2)) s = [] ∨
      hmac (hash (c2 ++ kxKeyCookie ++ c1)) s = []) →
      (register_matched_remote_datareader hash hmac st localDW remoteP
        (some (c1, c2, s))).2 = 0 ∧
      (register_matched_remote_datareader hash hmac st localDW remoteP
        (some (c1, c2, s))).1.keys = st.keys) := by
  refine ⟨by decide, by decide, ?_, ?_⟩
  · intro hsalt hmsk
    rw [register_matched_remote_datareader, if_neg h1, if_neg h2]
    dsimp only [generateHandle]
    rw [hk]
    dsimp only
    rw [hvol]
    rw [if_pos rfl]
    rw [if_neg (by
      dsimp only [make_volatile_key, hkdf]
      push_neg
      exact ⟨fun hc => hsalt (List.length_eq_zero.mp hc),
             fun hc => hmsk (List.length_eq_zero.mp hc)⟩)]
    dsimp only
    constructor
    · rfl
    · exact lookup_mset_self _ _ _
  · intro hcase
    rw [register_matched_remote_datareader, if_neg h1, if_neg h2]
    dsimp only [generateHandle]
    rw [hk]
    dsimp only
    rw [hvol]
    rw [if_pos rfl]
    rw [if_pos (by
      dsimp only [make_volatile_key, hkdf]
      rcases hcase with hc | hc
      · exact Or.inl (by rw [hc]; rfl)
      · exact Or.inr (by rw [hc]; rfl))]
    exact ⟨rfl, rfl⟩

/-- Witness for `c6_volatile_key_derivation` with concrete primitives
(`hash` returning its input, `hmac` concatenating key and data): the new
reader handle 4 receives the derived AES-256-GCM key. -/
theorem c6_volatile_key_derivation_witness :
    ((3 : Nat) ≠ 0 ∧ (2 : Nat) ≠ 0 ∧
     List.lookup 3 (⟨4, [(3, [make_volatile_placeholder])], [], [], []⟩ :
       CState).keys = some [make_volatile_placeholder] ∧
     is_volatile_placeholder make_volatile_placeholder = true) ∧
    List.lookup 4
      (register_matched_remote_datareader (fun l => l) (fun k d => k ++ d)
        ⟨4, [(3, [make_volatile_placeholder])], [], [], []⟩ 3 2
        (some ([7], [8], [9]))).1.keys =
      some [⟨[0, 0, 0, KIND_AES256_GCM],
             ([7] ++ kxSaltCookie ++ [8]) ++ [9], [0, 0, 0, 0],
             ([8] ++ kxKeyCookie ++ [7]) ++ [9], [0, 0, 0, 0], []⟩] := by
  have h := c6_volatile_key_derivation (fun l => l) (fun k d => k ++ d)
    ⟨4, [(3, [make_volatile_placeholder])], [], [], []⟩ 3 2 [7] [8] [9]
    make_volatile_placeholder (by decide) (by decide) rfl (by decide)
  refine ⟨⟨by decide, by decide, rfl, by decide⟩, ?_⟩
  exact (h.2.2.1 (by decide) (by decide)).2

/-! ### Encode pipeline — submessage (`encode_submessage`) -/

/-- Modelled from the spec: the RTPS submessage kind octet for `SEC_BODY`
(`0x30`; the numeric values live in the RTPS message-type header outside
the sources). -/
def SEC_BODY_ID : Nat := 48

/-- Modelled from the spec: the RTPS submessage kind octet for
`SEC_PREFIX` (`0x31`). -/
def SEC_PREFIX_ID : Nat := 49

/-- Modelled from the spec: the RTPS submessage kind octet for
`SEC_POSTFIX` (`0x32`). -/
def SEC_POSTFIX_ID : Nat := 50

/-- The cryptographic primitives of the transform, passed as parameters:
HMAC-SHA256 (session-key derivation), AES-256-GCM encryption, GCM tag
computation, decryption (returning `none` on tag mismatch), and GMAC
verification. -/
structure CryptoPrims where
  hmac : List Nat → List Nat → List Nat
  aesEnc : List Nat → List Nat → List Nat → List Nat
  gcmTag : List Nat → List Nat → List Nat → List Nat
  aesDec : List Nat → List Nat → List Nat → List Nat → Option (List Nat)
  gcmVerify : List Nat → List Nat → List Nat → List Nat → Bool

/-- Big-endian CDR serialization of a `CryptoHeader` (raw octet arrays). -/
def serCryptoHeader (h : CryptoHeaderM) : List Nat :=
  h.kind ++ h.keyId ++ h.sessionId ++ h.ivSuffix

/-- Big-endian CDR serialization of a `CryptoFooter`: the 16-byte
`common_mac` followed by the zero receiver-specific MAC count. -/
def serCryptoFooter (mac : List Nat) : List Nat := mac ++ u32be 0

/-- `CryptoBuiltInImpl::encrypt` up to OpenSSL: advance the session, build
the 12-byte IV `session id ‖ IV suffix`, produce ciphertext and 16-byte
tag via the primitives. -/
def encryptOp (P : CryptoPrims) (randId randIv : List Nat) (master : KeyMat)
    (sess : Session) (plain : List Nat) :
    Session × CryptoHeaderM × List Nat × List Nat :=
  let r := encauth_setup P.hmac randId randIv master sess plain.length
  let iv := r.1.id ++ r.1.ivSuffix
  (r.1, r.2, P.aesEnc r.1.key iv plain, P.gcmTag r.1.key iv plain)

/-- `CryptoBuiltInImpl::authtag` up to OpenSSL: advance the session and
produce the 16-byte GMAC tag, the plaintext entering as AAD. -/
def authtagOp (P : CryptoPrims) (randId randIv : List Nat) (master : KeyMat)
    (sess : Session) (plain : List Nat) :
    Session × CryptoHeaderM × List Nat :=
  let r := encauth_setup P.hmac randId randIv master sess plain.length
  (r.1, r.2, P.gcmTag r.1.key (r.1.id ++ r.1.ivSuffix) plain)

/-- The `submessageLength` patch of the authentication-only path: when the
16-bit length field (bytes 2 and 3) is zero, write `length − 4` into it,
low byte at index `2 + !(flags & 1)` and high byte at index
`2 + (flags & 1)`. -/
def patchSubmsgLen (plain : List Nat) : List Nat :=
  if plain.getD 2 0 = 0 ∧ plain.getD 3 0 = 0 then
    (plain.set (2 + (1 - plain.getD 1 0 % 2)) ((plain.length - 4) % 256)).set
      (2 + plain.getD 1 0 % 2) ((plain.length - 4) / 256 % 256)
  else plain

/-- The framed output of the authentication-only path: SEC_PREFIX header
(`submessageLength` 20) and crypto header, the wrapped submessage itself,
alignment padding to 4, SEC_POSTFIX header (`submessageLength` 20) and
footer.  No SEC_BODY submessage. -/
def frameAuth (hdr : CryptoHeaderM) (body mac : List Nat) : List Nat :=
  [SEC_PREFIX_ID, 0] ++ u16be 20 ++ serCryptoHeader hdr ++
  body ++ List.replicate (padOf body.length) 0 ++
  [SEC_POSTFIX_ID, 0] ++ u16be 20 ++ serCryptoFooter mac

/-- The framed output of the encrypting path: SEC_PREFIX header and crypto
header, SEC_BODY header (`submessageLength` = 4 + ciphertext length +
padding, truncated to 16 bits) with the `uint32` ciphertext length and the
ciphertext, alignment padding, SEC_POSTFIX header and footer. -/
def frameEncrypted (hdr : CryptoHeaderM) (ct mac : List Nat) : List Nat :=
  [SEC_PREFIX_ID, 0] ++ u16be 20 ++ serCryptoHeader hdr ++
  [SEC_BODY_ID, 0] ++ u16be ((4 + ct.length + padOf ct.length) % 65536) ++
  u32be ct.length ++ ct ++ List.replicate (padOf ct.length) 0 ++
  [SEC_POSTFIX_ID, 0] ++ u16be 20 ++ serCryptoFooter mac

/-- `CryptoBuiltInImpl::encode_submessage`: pass the submessage through
unchanged when the sender has no key entry or an empty key list; otherwise
dispatch on key 0 (`SUBMSG_KEY_IDX`): encrypt and frame with SEC_BODY;
or patch the zero length field, tag, and frame without SEC_BODY; or fail
on an unrecognized transform kind (sessions untouched in that case). -/
def encode_submessage (P : CryptoPrims) (randId randIv : List Nat)
    (st : CState) (plain : List Nat) (h : Nat) :
    CState × Except SecErr (List Nat) :=
  match List.lookup h st.keys with
  | none => (st, .ok plain)
  | some keyseq =>
    match keyseq with
    | [] => (st, .ok plain)
    | k0 :: _ =>
      if encrypts k0 then
        let r := mGetOrIns st.sessions (h, 0) defaultSession
        let e := encryptOp P randId randIv k0 r.1 plain
        ({ st with sessions := mset r.2 (h, 0) e.1 },
         .ok (frameEncrypted e.2.1 e.2.2.1 e.2.2.2))
      else if authenticates k0 then
        let patched := patchSubmsgLen plain
        let r := mGetOrIns st.sessions (h, 0) defaultSession
        let a := authtagOp P randId randIv k0 r.1 patched
        ({ st with sessions := mset r.2 (h, 0) a.1 },
         .ok (frameAuth a.2.1 patched a.2.2))
      else (st, .error ⟨-1, 0, "Key transform kind unrecognized"⟩)

/-- `CryptoBuiltInImpl::encode_datawriter_submessage`: validate handle,
index and receiver list; pass through when submessage protection is off
(the options read default-inserts); substitute the single receiver's
handle when the writer holds only the volatile placeholder; then
`encode_submessage`, advancing the list index on success. -/
def encode_datawriter_submessage (P : CryptoPrims) (randId randIv : List Nat)
    (st : CState) (plain : List Nat) (h : Nat) (recv : List Nat)
    (idx : Int) : CState × Except SecErr (List Nat) × Int :=
  if h = 0 then (st, .error ⟨-1, 0, "Invalid DataWriter handle"⟩, idx)
  else if idx < 0 then (st, .error ⟨-1, 0, "Negative list index"⟩, idx)
  else if recv.length ≠ 0 ∧ (recv.length : Int) ≤ idx then
    (st, .error ⟨-1, 0, "List index too large"⟩, idx)
  else if recv.any (fun x => x == 0) then
    (st, .error ⟨-1, 0, "Invalid DataReader handle in list"⟩, idx)
  else
    let r := mGetOrIns st.eo h defaultAttr
    let st1 := { st with eo := r.2 }
    if r.1.submessage = false then (st1, .ok plain, (recv.length : Int))
    else
      let encodeHandle :=
        if recv.length = 1 then
          match List.lookup h st1.keys with
          | some [k] => if is_volatile_placeholder k then recv.getD 0 0 else h
          | _ => h
        else h
      let e := encode_submessage P randId randIv st1 plain encodeHandle
      match e.2 with
      | .ok buf => (e.1, .ok buf, (recv.length : Int))
      | .error err => (e.1, .error err, idx)

/-- `CryptoBuiltInImpl::encode_datareader_submessage`: validate handle and
receiver list; substitute the single receiver's handle when the reader
holds only the volatile placeholder; then `encode_submessage`. -/
def encode_datareader_submessage (P : CryptoPrims) (randId randIv : List Nat)
    (st : CState) (plain : List Nat) (h : Nat) (recv : List Nat) :
    CState × Except SecErr (List Nat) :=
  if h = 0 then (st, .error ⟨-1, 0, "Invalid DataReader handle"⟩)
  else if recv.any (fun x => x == 0) then
    (st, .error ⟨-1, 0, "Invalid DataWriter handle in list"⟩)
  else
    let encodeHandle :=
      if recv.length = 1 then
        match List.lookup h st.keys with
        | some [k] => if is_volatile_placeholder k then recv.getD 0 0 else h
        | _ => h
      else h
    encode_submessage P randId randIv st plain encodeHandle

/-- **C10**: when the sender handle has no entry in the key registry or
its key list is empty, `encode_submessage` — directly, and through
`encode_datawriter_submessage` (with valid handle, index, and receiver
list) and `encode_datareader_submessage` (with valid handle and list) —
reports success and returns the plain submessage byte-for-byte, with no
error recorded and no SEC_PREFIX/SEC_BODY/SEC_POSTFIX framing added. -/
theorem c10_encode_submessage_passthrough (P : CryptoPrims)
    (randId randIv : List Nat) (st : CState) (plain : List Nat) (h : Nat)
    (hcase : List.lookup h st.keys = none ∨ List.lookup h st.keys = some []) :
    encode_submessage P randId randIv st plain h = (st, .ok plain) ∧
    (∀ recv idx, h ≠ 0 → ¬ idx < 0 →
      ¬ (recv.length ≠ 0 ∧ (recv.length : Int) ≤ idx) →
      recv.any (fun x => x == 0) = false →
      (encode_datawriter_submessage P randId randIv st plain h recv idx).2.1 =
        .ok plain) ∧
    (∀ recv, h ≠ 0 → recv.any (fun x => x == 0) = false →
      (encode_datareader_submessage P randId randIv st plain h recv).2 =
        .ok plain) := by
  have hmain : ∀ st' : CState, List.lookup h st'.keys = List.lookup h st.keys →
      encode_submessage P randId randIv st' plain h = (st', .ok plain) := by
    intro st' hkeys
    unfold encode_submessage
    rcases hcase with hc | hc
    · rw [hkeys, hc]
    · rw [hkeys, hc]
  have hEnc : ∀ st' : CState, List.lookup h st'.keys = List.lookup h st.keys →
      ∀ recv : List Nat,
      (if recv.length = 1 then
        match List.lookup h st'.keys with
        | some [k] => if is_volatile_placeholder k then recv.getD 0 0 else h
        | _ => h
      else h) = h := by
    intro st' hkeys recv
    by_cases hl : recv.length = 1
    · rw [if_pos hl, hkeys]
      rcases hcase with hc | hc <;> rw [hc]
    · rw [if_neg hl]
  refine ⟨hmain st rfl, ?_, ?_⟩
  · intro recv idx hnz hidx hlarge hany
    rw [encode_datawriter_submessage, if_neg hnz, if_neg hidx, if_neg hlarge,
      if_neg (by rw [hany]; simp)]
    by_cases hsub : (mGetOrIns st.eo h defaultAttr).1.submessage = false
    · rw [if_pos hsub]
    · rw [if_neg hsub]
      dsimp only
      rw [hEnc { st with eo := (mGetOrIns st.eo h defaultAttr).2 } rfl recv]
      rw [hmain { st with eo := (mGetOrIns st.eo h defaultAttr).2 } rfl]
  · intro recv hnz hany
    rw [encode_datareader_submessage, if_neg hnz,
      if_neg (by rw [hany]; simp)]
    dsimp only
    rw [hEnc st rfl recv, hmain st rfl]

/-- Witness for `c10_encode_submessage_passthrough`: a registry with no
entry for handle 5 passes the submessage through unchanged on all three
entry points. -/
theorem c10_encode_submessage_passthrough_witness :
    (List.lookup 5 (⟨1, [], [], [], []⟩ : CState).keys = none ∨
     List.lookup 5 (⟨1, [], [], [], []⟩ : CState).keys = some []) ∧
    encode_submessage ⟨fun _ _ => [], fun _ _ _ => [], fun _ _ _ => [],
        fun _ _ _ _ => none, fun _ _ _ _ => false⟩ [0, 0, 0, 0] (le64 0)
      ⟨1, [], [], [], []⟩ [9, 1, 0, 0, 7] 5 =
      (⟨1, [], [], [], []⟩, .ok [9, 1, 0, 0, 7]) ∧
    (encode_datareader_submessage ⟨fun _ _ => [], fun _ _ _ => [],
        fun _ _ _ => [], fun _ _ _ _ => none, fun _ _ _ _ => false⟩
      [0, 0, 0, 0] (le64 0) ⟨1, [], [], [], []⟩ [9, 1, 0, 0, 7] 5 [3]).2 =
      .ok [9, 1, 0, 0, 7] := by
  have h := c10_encode_submessage_passthrough
    ⟨fun _ _ => [], fun _ _ _ => [], fun _ _ _ => [],
     fun _ _ _ _ => none, fun _ _ _ _ => false⟩ [0, 0, 0, 0] (le64 0)
    ⟨1, [], [], [], []⟩ [9, 1, 0, 0, 7] 5 (Or.inl rfl)
  exact ⟨Or.inl rfl, h.1, h.2.2 [3] (by decide) (by decide)⟩

/-- A GMAC key never takes the encrypting branch: the dispatch in
`encode_submessage` is exclusive. -/
theorem auth_not_encrypts (k : KeyMat) (h : authenticates k = true) :
    encrypts k = false := by
  unfold authenticates at h
  unfold encrypts
  simp only [Bool.and_eq_true, Bool.or_eq_true, beq_iff_eq] at h
  obtain ⟨⟨⟨h0, h1⟩, h2⟩, h3⟩ := h
  have hne : (k.kind.getD 3 0 == KIND_AES128_GCM ||
      k.kind.getD 3 0 == KIND_AES256_GCM) = false := by
    rw [List.getD_eq_getElem?_getD] at h3
    rcases h3 with h3 | h3 <;>
      simp [List.getD_eq_getElem?_getD, h3, KIND_AES128_GMAC,
        KIND_AES256_GMAC, KIND_AES128_GCM, KIND_AES256_GCM]
  rw [hne]
  simp

/-- The 16-bit `submessageLength` field of a serialized submessage, read
from bytes 2 and 3 in the byte order selected by bit 0 of the flags octet
(byte 1): little-endian when the bit is set, big-endian otherwise. -/
def submsgLenField (l : List Nat) : Nat :=
  if l.getD 1 0 % 2 = 1 then l.getD 2 0 + 256 * l.getD 3 0
  else 256 * l.getD 2 0 + l.getD 3 0

theorem patchSubmsgLen_length (plain : List Nat) :
    (patchSubmsgLen plain).length = plain.length := by
  unfold patchSubmsgLen
  split
  · simp [List.length_set]
  · rfl

theorem patchSubmsgLen_id (plain : List Nat)
    (hz : ¬ (plain.getD 2 0 = 0 ∧ plain.getD 3 0 = 0)) :
    patchSubmsgLen plain = plain := by
  unfold patchSubmsgLen
  rw [if_neg hz]

theorem patchSubmsgLen_spec (plain : List Nat) (hlen : 4 ≤ plain.length)
    (hz : plain.getD 2 0 = 0 ∧ plain.getD 3 0 = 0) :
    (∀ i, i ≠ 2 → i ≠ 3 →
      (patchSubmsgLen plain).getD i 0 = plain.getD i 0) ∧
    submsgLenField (patchSubmsgLen plain) = (plain.length - 4) % 65536 := by
  unfold patchSubmsgLen
  rw [if_pos hz]
  by_cases hbit : plain.getD 1 0 % 2 = 1
  · have hidxLo : 2 + (1 - plain.getD 1 0 % 2) = 2 := by omega
    have hidxHi : 2 + plain.getD 1 0 % 2 = 3 := by omega
    rw [hidxLo, hidxHi]
    constructor
    · intro i hi2 hi3
      rw [List.getD_eq_getElem?_getD, List.getD_eq_getElem?_getD,
        List.getElem?_set_ne (by omega : (3 : Nat) ≠ i),
        List.getElem?_set_ne (by omega : (2 : Nat) ≠ i)]
    · have h1 : ((plain.set 2 ((plain.length - 4) % 256)).set 3
          ((plain.length - 4) / 256 % 256)).getD 1 0 = plain.getD 1 0 := by
        rw [List.getD_eq_getElem?_getD, List.getD_eq_getElem?_getD,
          List.getElem?_set_ne (by omega : (3 : Nat) ≠ 1),
          List.getElem?_set_ne (by omega : (2 : Nat) ≠ 1)]
      have h2 : ((plain.set 2 ((plain.length - 4) % 256)).set 3
          ((plain.length - 4) / 256 % 256)).getD 2 0 =
          (plain.length - 4) % 256 := by
        rw [List.getD_eq_getElem?_getD,
          List.getElem?_set_ne (by omega : (3 : Nat) ≠ 2),
          List.getElem?_set_self (by omega : 2 < plain.length)]
        rfl
      have h3 : ((plain.set 2 ((plain.length - 4) % 256)).set 3
          ((plain.length - 4) / 256 % 256)).getD 3 0 =
          (plain.length - 4) / 256 % 256 := by
        rw [List.getD_eq_getElem?_getD,
          List.getElem?_set_self (by rw [List.length_set]; omega)]
        rfl
      rw [submsgLenField, h1, h2, h3, if_pos hbit]
      omega
  · have hbit0 : plain.getD 1 0 % 2 = 0 := by omega
    have hidxLo : 2 + (1 - plain.getD 1 0 % 2) = 3 := by omega
    have hidxHi : 2 + plain.getD 1 0 % 2 = 2 := by omega
    rw [hidxLo, hidxHi]
    constructor
    · intro i hi2 hi3
      rw [List.getD_eq_getElem?_getD, List.getD_eq_getElem?_getD,
        List.getElem?_set_ne (by omega : (2 : Nat) ≠ i),
        List.getElem?_set_ne (by omega : (3 : Nat) ≠ i)]
    · have h1 : ((plain.set 3 ((plain.length - 4) % 256)).set 2
          ((plain.length - 4) / 256 % 256)).getD 1 0 = plain.getD 1 0 := by
        rw [List.getD_eq_getElem?_getD, List.getD_eq_getElem?_getD,
          List.getElem?_set_ne (by omega : (2 : Nat) ≠ 1),
          List.getElem?_set_ne (by omega : (3 : Nat) ≠ 1)]
      have h2 : ((plain.set 3 ((plain.length - 4) % 256)).set 2
          ((plain.length - 4) / 256 % 256)).getD 2 0 =
          (plain.length - 4) / 256 % 256 := by
        rw [List.getD_eq_getElem?_getD,
          List.getElem?_set_self (by rw [List.length_set]; omega)]
        rfl
      have h3 : ((plain.set 3 ((plain.length - 4) % 256)).set 2
          ((plain.length - 4) / 256 % 256)).getD 3 0 =
          (plain.length - 4) % 256 := by
        rw [List.getD_eq_getElem?_getD,
          List.getElem?_set_ne (by omega : (2 : Nat) ≠ 3),
          List.getElem?_set_self (by omega : 3 < plain.length)]
        rfl
      rw [submsgLenField, h1, h2, h3, hbit0]
      norm_num
      omega

/-- **C7**: when the sender's selected key (index 0) authenticates (GMAC),
`encode_submessage` emits no SEC_BODY: the output is exactly the
SEC_PREFIX submessage (header octet, flags 0, length 20, crypto header),
then the wrapped submessage itself, alignment padding, and the SEC_POSTFIX
submessage (header octet, flags 0, length 20, 16-byte MAC, zero count).
The wrapped submessage equals the original except that, when the
original's 16-bit `submessageLength` field (bytes 2–3) is zero, that field
is set to the total byte length minus 4, written in the byte order
selected by bit 0 of the flags octet. -/
theorem c7_encode_submessage_gmac_framing (P : CryptoPrims)
    (randId randIv : List Nat) (st : CState) (plain : List Nat) (h : Nat)
    (k0 : KeyMat) (rest : List KeyMat)
    (hk : List.lookup h st.keys = some (k0 :: rest))
    (hauth : authenticates k0 = true) (hlen : 4 ≤ plain.length) :
    ∃ patched hdr mac : List Nat,
      (encode_submessage P randId randIv st plain h).2 =
        .ok ([SEC_PREFIX_ID, 0] ++ u16be 20 ++ hdr ++ patched ++
             List.replicate (padOf patched.length) 0 ++
             [SEC_POSTFIX_ID, 0] ++ u16be 20 ++ mac ++ u32be 0) ∧
      patched.length = plain.length ∧
      (¬ (plain.getD 2 0 = 0 ∧ plain.getD 3 0 = 0) → patched = plain) ∧
      ((plain.getD 2 0 = 0 ∧ plain.getD 3 0 = 0) →
        (∀ i, i ≠ 2 → i ≠ 3 → patched.getD i 0 = plain.getD i 0) ∧
        submsgLenField patched = (plain.length - 4) % 65536) := by
  have hnenc : encrypts k0 = false := auth_not_encrypts k0 hauth
  refine ⟨patchSubmsgLen plain,
    serCryptoHeader (authtagOp P randId randIv k0
      (mGetOrIns st.sessions (h, 0) defaultSession).1
      (patchSubmsgLen plain)).2.1,
    (authtagOp P randId randIv k0
      (mGetOrIns st.sessions (h, 0) defaultSession).1
      (patchSubmsgLen plain)).2.2, ?_, patchSubmsgLen_length plain,
    patchSubmsgLen_id plain, fun hz => patchSubmsgLen_spec plain hlen hz⟩
  unfold encode_submessage
  rw [hk]
  dsimp only
  rw [hnenc, hauth]
  simp [frameAuth, serCryptoFooter, List.append_assoc]

/-- Witness for `c7_encode_submessage_gmac_framing`: a 5-byte submessage
with little-endian flags and a zero length field, wrapped by a writer
holding one AES-256-GMAC key. -/
theorem c7_encode_submessage_gmac_framing_witness :
    (List.lookup 5 (⟨6,
        [(5, [⟨[0, 0, 0, 3], [1], [5, 0, 0, 0], [2], [0, 0, 0, 0], []⟩])],
        [], [], []⟩ : CState).keys =
      some [⟨[0, 0, 0, 3], [1], [5, 0, 0, 0], [2], [0, 0, 0, 0], []⟩] ∧
     authenticates ⟨[0, 0, 0, 3], [1], [5, 0, 0, 0], [2], [0, 0, 0, 0], []⟩ =
       true ∧
     4 ≤ ([21, 1, 0, 0, 9] : List Nat).length) ∧
    (∃ patched hdr mac : List Nat,
      (encode_submessage
        ⟨fun _ _ => [7], fun _ _ _ => [], fun _ _ _ => [1, 2],
         fun _ _ _ _ => none, fun _ _ _ _ => false⟩
        [4, 4, 4, 4] [8, 8, 8, 8, 8, 8, 8, 8]
        ⟨6, [(5, [⟨[0, 0, 0, 3], [1], [5, 0, 0, 0], [2], [0, 0, 0, 0], []⟩])],
         [], [], []⟩ [21, 1, 0, 0, 9] 5).2 =
        .ok ([SEC_PREFIX_ID, 0] ++ u16be 20 ++ hdr ++ patched ++
             List.replicate (padOf patched.length) 0 ++
             [SEC_POSTFIX_ID, 0] ++ u16be 20 ++ mac ++ u32be 0) ∧
      patched.length = ([21, 1, 0, 0, 9] : List Nat).length ∧
      (¬ (([21, 1, 0, 0, 9] : List Nat).getD 2 0 = 0 ∧
          ([21, 1, 0, 0, 9] : List Nat).getD 3 0 = 0) →
        patched = [21, 1, 0, 0, 9]) ∧
      ((([21, 1, 0, 0, 9] : List Nat).getD 2 0 = 0 ∧
        ([21, 1, 0, 0, 9] : List Nat).getD 3 0 = 0) →
        (∀ i, i ≠ 2 → i ≠ 3 →
          patched.getD i 0 = ([21, 1, 0, 0, 9] : List Nat).getD i 0) ∧
        submsgLenField patched =
          (([21, 1, 0, 0, 9] : List Nat).length - 4) % 65536)) := by
  refine ⟨⟨rfl, by decide, by decide⟩, ?_⟩
  exact c7_encode_submessage_gmac_framing
    ⟨fun _ _ => [7], fun _ _ _ => [], fun _ _ _ => [1, 2],
     fun _ _ _ _ => none, fun _ _ _ _ => false⟩
    [4, 4, 4, 4] [8, 8, 8, 8, 8, 8, 8, 8]
    ⟨6, [(5, [⟨[0, 0, 0, 3], [1], [5, 0, 0, 0], [2], [0, 0, 0, 0], []⟩])],
     [], [], []⟩ [21, 1, 0, 0, 9] 5
    ⟨[0, 0, 0, 3], [1], [5, 0, 0, 0], [2], [0, 0, 0, 0], []⟩ []
    rfl (by decide) (by decide)

/-! ### Decode pipeline (`decode_submessage`, `decode_serialized_payload`)

The parsing of the encoded buffer (SEC_PREFIX / SEC_BODY / SEC_POSTFIX
headers, crypto header, ciphertext pointer, footer) only reads the input;
the parsed pieces enter the functions below as arguments.  All registry
effects of the C++ functions happen after the parse. -/

/-- `Session::get_key` (receiver side): return the cached key when it
exists and the cached id equals the header's session id; otherwise adopt
the header's session id and re-derive. -/
def sessionGetKey (hmac : List Nat → List Nat → List Nat) (master : KeyMat)
    (hdr : CryptoHeaderM) (s : Session) : List Nat × Session :=
  if s.key.length ≠ 0 ∧ s.id = hdr.sessionId then (s.key, s)
  else
    (derive_key hmac master hdr.sessionId,
     { s with id := hdr.sessionId,
              key := derive_key hmac master hdr.sessionId })

/-- `CryptoBuiltInImpl::decrypt` up to OpenSSL: fetch/derive the session
key (failing when empty), require kind byte 3 to be AES-256-GCM, then
decrypt with the IV `session id ‖ IV suffix`; a tag mismatch
(`EVP_DecryptFinal_ex`) is a failure. -/
def decryptOp (P : CryptoPrims) (master : KeyMat) (s : Session)
    (ct : List Nat) (hdr : CryptoHeaderM) (mac : List Nat) :
    Session × Except SecErr (List Nat) :=
  let r := sessionGetKey P.hmac master hdr s
  if r.1.length = 0 then (r.2, .error ⟨-1, 0, "no session key"⟩)
  else if master.kind.getD 3 0 ≠ KIND_AES256_GCM then
    (r.2, .error ⟨-1, 0, "unsupported transformation kind"⟩)
  else
    match P.aesDec r.1 (hdr.sessionId ++ hdr.ivSuffix) ct mac with
    | some plainOut => (r.2, .ok plainOut)
    | none => (r.2, .error ⟨-1, 0, "EVP_DecryptFinal_ex"⟩)

/-- `CryptoBuiltInImpl::verify` up to OpenSSL: like `decryptOp` but the
data enters as AAD, kind byte 3 must be AES-256-GMAC, and the verified
output is the input copied through. -/
def verifyOp (P : CryptoPrims) (master : KeyMat) (s : Session)
    (data : List Nat) (hdr : CryptoHeaderM) (mac : List Nat) :
    Session × Except SecErr (List Nat) :=
  let r := sessionGetKey P.hmac master hdr s
  if r.1.length = 0 then (r.2, .error ⟨-1, 0, "no session key"⟩)
  else if master.kind.getD 3 0 ≠ KIND_AES256_GMAC then
    (r.2, .error ⟨-1, 0, "unsupported transformation kind"⟩)
  else if P.gcmVerify r.1 (hdr.sessionId ++ hdr.ivSuffix) data mac then
    (r.2, .ok data)
  else (r.2, .error ⟨-1, 0, "EVP_DecryptFinal_ex"⟩)

/-- A placeholder `KeyMat` for the (unreachable) out-of-range index read
after a successful `findIdx?`. -/
def emptyKeyMat : KeyMat := ⟨[], [], [], [], [], []⟩

/-- `CryptoBuiltInImpl::decode_submessage` after the parse: the read
`keys_[sender_handle]` default-inserts an empty key list; the first key
matching the header decides the branch (decrypt over the SEC_BODY
ciphertext `ct`, or verify over the original submessage bytes `authData`);
no match fails with −2 minor 1. -/
def decode_submessage (P : CryptoPrims) (st : CState) (h : Nat)
    (ch : CryptoHeaderM) (mac ct authData : List Nat) :
    CState × Except SecErr (List Nat) :=
  let rk := mGetOrIns st.keys h []
  let st1 := { st with keys := rk.2 }
  match rk.1.findIdx? (fun k => matchesHdr k ch) with
  | none => (st1, .error ⟨-2, 1, "Crypto Key not found"⟩)
  | some i =>
    let k := rk.1.getD i emptyKeyMat
    if encrypts k then
      let rs := mGetOrIns st1.sessions (h, i) defaultSession
      let d := decryptOp P k rs.1 ct ch mac
      ({ st1 with sessions := mset rs.2 (h, i) d.1 }, d.2)
    else if authenticates k then
      let rs := mGetOrIns st1.sessions (h, i) defaultSession
      let d := verifyOp P k rs.1 authData ch mac
      ({ st1 with sessions := mset rs.2 (h, i) d.1 }, d.2)
    else (st1, .error ⟨-2, 2, "Key transform kind unrecognized"⟩)

/-- `CryptoBuiltInImpl::decode_serialized_payload` after the parse: guard
the handle; the `encrypt_options_[h]` read default-inserts; payload
protection off passes the encoded buffer through; otherwise
`keys_[h]` default-inserts and the first matching key decrypts
(authentication-only payloads fail with −3 minor 3). -/
def decode_serialized_payload (P : CryptoPrims) (st : CState) (h : Nat)
    (encoded : List Nat) (ch : CryptoHeaderM) (ct mac : List Nat) :
    CState × Except SecErr (List Nat) :=
  if h = 0 then (st, .error ⟨-1, 0, "Invalid Datawriter handle"⟩)
  else
    let ro := mGetOrIns st.eo h defaultAttr
    let st1 := { st with eo := ro.2 }
    if ro.1.payload = false then (st1, .ok encoded)
    else
      let rk := mGetOrIns st1.keys h []
      let st2 := { st1 with keys := rk.2 }
      match rk.1.findIdx? (fun k => matchesHdr k ch) with
      | none => (st2, .error ⟨-3, 1, "Crypto Key not found"⟩)
      | some i =>
        let k := rk.1.getD i emptyKeyMat
        if encrypts k then
          let rs := mGetOrIns st2.sessions (h, i) defaultSession
          let d := decryptOp P k rs.1 ct ch mac
          ({ st2 with sessions := mset rs.2 (h, i) d.1 }, d.2)
        else if authenticates k then
          (st2, .error ⟨-3, 3,
            "Auth-only payload transformation not supported"⟩)
        else (st2, .error ⟨-3, 2, "Key transform kind unrecognized"⟩)

theorem pair_beq_false (p : Nat × Nat) (h i : Nat) (hp : p.1 ≠ h) :
    (p == (h, i)) = false :=
  beq_eq_false_iff_ne.mpr (fun hc => hp (by rw [hc]))

theorem lookup_mGetOrIns_self_none {K V : Type} [BEq K] [LawfulBEq K]
    (m : List (K × V)) (k : K) (d : V) (hm : List.lookup k m = none) :
    List.lookup k (mGetOrIns m k d).2 = some d := by
  rw [lookup_mGetOrIns_self]
  congr 1
  rw [mGetOrIns, hm]

theorem mGetOrIns_of_some {K V : Type} [BEq K] (m : List (K × V)) (k : K)
    (d v : V) (hm : List.lookup k m = some v) : (mGetOrIns m k d).2 = m := by
  rw [mGetOrIns, hm]

theorem decode_submessage_frame (P : CryptoPrims) (st : CState) (h : Nat)
    (ch : CryptoHeaderM) (mac ct authData : List Nat) :
    (decode_submessage P st h ch mac ct authData).1.p2e = st.p2e ∧
    (decode_submessage P st h ch mac ct authData).1.eo = st.eo ∧
    (decode_submessage P st h ch mac ct authData).1.nextHandle =
      st.nextHandle ∧
    (decode_submessage P st h ch mac ct authData).1.keys =
      (mGetOrIns st.keys h []).2 ∧
    (∀ p : Nat × Nat, p.1 ≠ h →
      List.lookup p (decode_submessage P st h ch mac ct authData).1.sessions =
        List.lookup p st.sessions) := by
  simp only [decode_submessage]
  cases hidx : (mGetOrIns st.keys h []).1.findIdx?
      (fun k => matchesHdr k ch) with
  | none => exact ⟨rfl, rfl, rfl, rfl, fun p hp => rfl⟩
  | some i =>
    dsimp only
    split_ifs with henc hau
    · refine ⟨rfl, rfl, rfl, rfl, ?_⟩
      intro p hp
      rw [lookup_mset_other _ _ _ _ (pair_beq_false p h i hp),
        lookup_mGetOrIns_other _ _ _ _ (pair_beq_false p h i hp)]
    · refine ⟨rfl, rfl, rfl, rfl, ?_⟩
      intro p hp
      rw [lookup_mset_other _ _ _ _ (pair_beq_false p h i hp),
        lookup_mGetOrIns_other _ _ _ _ (pair_beq_false p h i hp)]
    · exact ⟨rfl, rfl, rfl, rfl, fun p hp => rfl⟩

theorem decode_serialized_payload_frame (P : CryptoPrims) (st : CState)
    (h : Nat) (encoded : List Nat) (ch : CryptoHeaderM) (ct mac : List Nat) :
    (decode_serialized_payload P st h encoded ch ct mac).1.p2e = st.p2e ∧
    (decode_serialized_payload P st h encoded ch ct mac).1.nextHandle =
      st.nextHandle ∧
    (∀ h', h' ≠ h →
      List.lookup h' (decode_serialized_payload P st h encoded ch ct mac).1.eo =
        List.lookup h' st.eo) ∧
    (∀ h', h' ≠ h →
      List.lookup h'
        (decode_serialized_payload P st h encoded ch ct mac).1.keys =
        List.lookup h' st.keys) ∧
    (List.lookup h (decode_serialized_payload P st h encoded ch ct mac).1.keys =
      List.lookup h st.keys ∨
     List.lookup h (decode_serialized_payload P st h encoded ch ct mac).1.keys =
      some []) ∧
    (List.lookup h (decode_serialized_payload P st h encoded ch ct mac).1.eo =
      List.lookup h st.eo ∨
     List.lookup h (decode_serialized_payload P st h encoded ch ct mac).1.eo =
      some defaultAttr) ∧
    (∀ p : Nat × Nat, p.1 ≠ h →
      List.lookup p
        (decode_serialized_payload P st h encoded ch ct mac).1.sessions =
        List.lookup p st.sessions) := by
  have heo1 : ∀ h', h' ≠ h →
      List.lookup h' (mGetOrIns st.eo h defaultAttr).2 = List.lookup h' st.eo :=
    fun h' hne => lookup_mGetOrIns_other _ _ _ _ (beq_eq_false_iff_ne.mpr hne)
  have heo2 : List.lookup h (mGetOrIns st.eo h defaultAttr).2 =
      List.lookup h st.eo ∨
      List.lookup h (mGetOrIns st.eo h defaultAttr).2 = some defaultAttr := by
    cases hm : List.lookup h st.eo with
    | some v =>
      left
      rw [mGetOrIns_of_some _ _ _ _ hm]
      exact hm
    | none =>
      right
      exact lookup_mGetOrIns_self_none _ _ _ hm
  have hk1 : ∀ h', h' ≠ h →
      List.lookup h' (mGetOrIns st.keys h []).2 = List.lookup h' st.keys :=
    fun h' hne => lookup_mGetOrIns_other _ _ _ _ (beq_eq_false_iff_ne.mpr hne)
  have hk2 : List.lookup h (mGetOrIns st.keys h []).2 =
      List.lookup h st.keys ∨
      List.lookup h (mGetOrIns st.keys h []).2 = some [] := by
    cases hm : List.lookup h st.keys with
    | some v =>
      left
      rw [mGetOrIns_of_some _ _ _ _ hm]
      exact hm
    | none =>
      right
      exact lookup_mGetOrIns_self_none _ _ _ hm
  simp only [decode_serialized_payload]
  by_cases hz : h = 0
  · rw [if_pos hz]
    exact ⟨rfl, rfl, fun h' _ => rfl, fun h' _ => rfl, Or.inl rfl, Or.inl rfl,
      fun p _ => rfl⟩
  · rw [if_neg hz]
    by_cases hoff : (mGetOrIns st.eo h defaultAttr).1.payload = false
    · rw [if_pos hoff]
      exact ⟨rfl, rfl, heo1, fun h' _ => rfl, Or.inl rfl, heo2, fun p _ => rfl⟩
    · rw [if_neg hoff]
      cases hidx : (mGetOrIns st.keys h []).1.findIdx?
          (fun k => matchesHdr k ch) with
      | none => exact ⟨rfl, rfl, heo1, hk1, hk2, heo2, fun p _ => rfl⟩
      | some i =>
        dsimp only
        split_ifs with henc hau
        · refine ⟨rfl, rfl, heo1, hk1, hk2, heo2, ?_⟩
          intro p hp
          rw [lookup_mset_other _ _ _ _ (pair_beq_false p h i hp),
            lookup_mGetOrIns_other _ _ _ _ (pair_beq_false p h i hp)]
        · exact ⟨rfl, rfl, heo1, hk1, hk2, heo2, fun p _ => rfl⟩
        · exact ⟨rfl, rfl, heo1, hk1, hk2, heo2, fun p _ => rfl⟩

/-- **C9** counterexample: decoding a submessage for a sender handle with
no key entry fails ("Crypto Key not found", −2 minor 1), yet the
`keys_[sender_handle]` read has inserted an empty key list for handle 7:
the registry state after the failing call differs from the state before. -/
theorem c9_counterexample :
    (decode_submessage
      ⟨fun _ _ => [], fun _ _ _ => [], fun _ _ _ => [],
       fun _ _ _ _ => none, fun _ _ _ _ => false⟩
      ⟨1, [], [], [], []⟩ 7
      ⟨[0, 0, 0, 4], [1, 0, 0, 0], [0, 0, 0, 0], [0, 0, 0, 0, 0, 0, 0, 0]⟩
      [] [] []).2 = .error ⟨-2, 1, "Crypto Key not found"⟩ ∧
    List.lookup 7 (⟨1, [], [], [], []⟩ : CState).keys = none ∧
    List.lookup 7 (decode_submessage
      ⟨fun _ _ => [], fun _ _ _ => [], fun _ _ _ => [],
       fun _ _ _ _ => none, fun _ _ _ _ => false⟩
      ⟨1, [], [], [], []⟩ 7
      ⟨[0, 0, 0, 4], [1, 0, 0, 0], [0, 0, 0, 0], [0, 0, 0, 0, 0, 0, 0, 0]⟩
      [] [] []).1.keys = some [] := by
  exact ⟨rfl, rfl, rfl⟩

/-- **C9** (amended): a failing decode (`decode_submessage`,
`decode_serialized_payload`) leaves `participant_to_entity` and the handle
counter unchanged and does not disturb any entry of `keys`,
`encrypt_options`, or `sessions` for handles other than the sender handle;
for the sender handle itself the call may insert an empty key list (and,
for payload decode, a default encrypt-options entry) when the entry was
absent, and may create or mutate session entries of the sender handle
(`decode_submessage` additionally leaves `encrypt_options` fully
unchanged).  The registry is not otherwise restored to its prior state, as
the counterexample shows. -/
theorem c9_decode_failure_state_effects (P : CryptoPrims) (st : CState)
    (h : Nat) (ch : CryptoHeaderM) (mac ct authData encoded : List Nat) :
    (∀ e, (decode_submessage P st h ch mac ct authData).2 = .error e →
      (decode_submessage P st h ch mac ct authData).1.p2e = st.p2e ∧
      (decode_submessage P st h ch mac ct authData).1.eo = st.eo ∧
      (decode_submessage P st h ch mac ct authData).1.nextHandle =
        st.nextHandle ∧
      (∀ h', h' ≠ h →
        List.lookup h'
          (decode_submessage P st h ch mac ct authData).1.keys =
          List.lookup h' st.keys) ∧
      (List.lookup h (decode_submessage P st h ch mac ct authData).1.keys =
        List.lookup h st.keys ∨
       List.lookup h (decode_submessage P st h ch mac ct authData).1.keys =
        some []) ∧
      (∀ p : Nat × Nat, p.1 ≠ h →
        List.lookup p
          (decode_submessage P st h ch mac ct authData).1.sessions =
          List.lookup p st.sessions)) ∧
    (∀ e, (decode_serialized_payload P st h encoded ch ct mac).2 =
        .error e →
      (decode_serialized_payload P st h encoded ch ct mac).1.p2e = st.p2e ∧
      (decode_serialized_payload P st h encoded ch ct mac).1.nextHandle =
        st.nextHandle ∧
      (∀ h', h' ≠ h →
        List.lookup h'
          (decode_serialized_payload P st h encoded ch ct mac).1.eo =
          List.lookup h' st.eo) ∧
      (List.lookup h
        (decode_serialized_payload P st h encoded ch ct mac).1.eo =
        List.lookup h st.eo ∨
       List.lookup h
        (decode_serialized_payload P st h encoded ch ct mac).1.eo =
        some defaultAttr) ∧
      (∀ h', h' ≠ h →
        List.lookup h'
          (decode_serialized_payload P st h encoded ch ct mac).1.keys =
          List.lookup h' st.keys) ∧
      (List.lookup h
        (decode_serialized_payload P st h encoded ch ct mac).1.keys =
        List.lookup h st.keys ∨
       List.lookup h
        (decode_serialized_payload P st h encoded ch ct mac).1.keys =
        some []) ∧
      (∀ p : Nat × Nat, p.1 ≠ h →
        List.lookup p
          (decode_serialized_payload P st h encoded ch ct mac).1.sessions =
          List.lookup p st.sessions)) := by
  constructor
  · intro e _
    obtain ⟨h1, h2, h3, h4, h5⟩ :=
      decode_submessage_frame P st h ch mac ct authData
    refine ⟨h1, h2, h3, ?_, ?_, h5⟩
    · intro h' hne
      rw [h4]
      exact lookup_mGetOrIns_other _ _ _ _ (beq_eq_false_iff_ne.mpr hne)
    · rw [h4]
      cases hm : List.lookup h st.keys with
      | some v =>
        left
        rw [mGetOrIns_of_some _ _ _ _ hm]
        exact hm
      | none =>
        right
        exact lookup_mGetOrIns_self_none _ _ _ hm
  · intro e _
    obtain ⟨h1, h2, h3, h4, h5, h6, h7⟩ :=
      decode_serialized_payload_frame P st h encoded ch ct mac
    exact ⟨h1, h2, h3, h6, h4, h5, h7⟩

/-- Witness for `c9_decode_failure_state_effects` at the unmatched-key
failure: both decodes fail on an empty registry, and the sessions of other
handles are untouched. -/
theorem c9_decode_failure_state_effects_witness :
    ((decode_submessage
        ⟨fun _ _ => [], fun _ _ _ => [], fun _ _ _ => [],
         fun _ _ _ _ => none, fun _ _ _ _ => false⟩
        ⟨1, [], [], [], []⟩ 7
        ⟨[0, 0, 0, 4], [1, 0, 0, 0], [0, 0, 0, 0], [0, 0, 0, 0, 0, 0, 0, 0]⟩
        [] [] []).2 = .error ⟨-2, 1, "Crypto Key not found"⟩) ∧
    (decode_submessage
        ⟨fun _ _ => [], fun _ _ _ => [], fun _ _ _ => [],
         fun _ _ _ _ => none, fun _ _ _ _ => false⟩
        ⟨1, [], [], [], []⟩ 7
        ⟨[0, 0, 0, 4], [1, 0, 0, 0], [0, 0, 0, 0], [0, 0, 0, 0, 0, 0, 0, 0]⟩
        [] [] []).1.p2e = ([] : List (Nat × EntityInfo)) := by
  refine ⟨rfl, ?_⟩
  have h := (c9_decode_failure_state_effects
    ⟨fun _ _ => [], fun _ _ _ => [], fun _ _ _ => [],
     fun _ _ _ _ => none, fun _ _ _ _ => false⟩
    ⟨1, [], [], [], []⟩ 7
    ⟨[0, 0, 0, 4], [1, 0, 0, 0], [0, 0, 0, 0], [0, 0, 0, 0, 0, 0, 0, 0]⟩
    [] [] [] []).1 ⟨-2, 1, "Crypto Key not found"⟩ rfl
  exact h.1
